import Mathlib

/-!
Verification development for the Argus job-discovery repository.

The definitions below are a shallow embedding of the repository's core
subsystems:

* the ATS pattern registry and resolver (`src/fix_ats_config.py`),
* the workday checker (`src/investigate_unverified.py`),
* the heuristic browser crawler's link-extraction pipeline
  (`src/generic_crawler.py`).

Python strings are modelled as Lean `String` / `List Char`; Python `re.search`
is modelled by a small backtracking matcher (`matchT` / `research`) over the
exact token shapes occurring in the repository's regular expressions (literal
characters matched case-insensitively, character classes, greedy star / plus /
optional over a class, and one capturing group).  Character classes are
modelled over the code points that actually occur in the data handled here
(ASCII); e.g. the class for a Python word character is the ASCII reading of
the re module's word class.  Network and browser effects are passed in as
explicit oracles (environments), and Python exceptions are `Except`.
-/

/-- Code point of a character, as a natural number. -/
def chN (c : Char) : Nat := c.toNat

/-- Lower-casing on code points, as Python's str.lower acts on the ASCII
range: the codes 65-90 shift by 32, everything else is unchanged. -/
def pyLowN (n : Nat) : Nat := if 65 ≤ n ∧ n ≤ 90 then n + 32 else n

/-- Lower-cased code point of a character. -/
def lowN (c : Char) : Nat := pyLowN (chN c)

/-- Case-insensitive character comparison, used for literal characters of a
pattern compiled with re.IGNORECASE (and for already lower-cased text). -/
def lowEq (x c : Char) : Bool := lowN x == lowN c

/-- Lower-cased character, for building lower-cased strings
(Python str.lower restricted to the ASCII range). -/
def pyLowerC (c : Char) : Char := Char.ofNat (pyLowN (chN c))

/-- Lower-cased string (Python str.lower on ASCII text). -/
def lowerStr (s : String) : String := String.mk (s.toList.map pyLowerC)

/-- Lower-cased code points of a string; substring checks between lower-cased
Python strings are done on these lists. -/
def lowCodes (s : String) : List Nat := s.toList.map lowN

/-- Membership of a character in the ASCII word class (the re module's word
class over the slugs and URLs handled by the repository). -/
def wordChar (c : Char) : Bool :=
  decide ((97 ≤ chN c ∧ chN c ≤ 122) ∨ (65 ≤ chN c ∧ chN c ≤ 90) ∨
    (48 ≤ chN c ∧ chN c ≤ 57) ∨ chN c = 95)

/-- Membership in the whitespace class (Python str.split and the re module's
space class, over ASCII whitespace). -/
def pyIsSpace (c : Char) : Bool :=
  decide (chN c = 32 ∨ chN c = 9 ∨ chN c = 10 ∨ chN c = 11 ∨ chN c = 12 ∨ chN c = 13)

/-- Character classes occurring in the repository's regular expressions. -/
inductive ChCls where
  /-- the word class -/
  | word
  /-- the digit class -/
  | digit
  /-- the whitespace class -/
  | space
  /-- anything but a closing angle bracket -/
  | notGt
  /-- anything but a quote character -/
  | notQuote
  /-- a single or double quote -/
  | quote
  /-- any character except a newline (the dot of a pattern without DOTALL) -/
  | anyc
deriving DecidableEq, Repr

/-- Class membership test. -/
def ChCls.mem (p : ChCls) (c : Char) : Bool :=
  match p with
  | .word => wordChar c
  | .digit => decide (48 ≤ chN c ∧ chN c ≤ 57)
  | .space => pyIsSpace c
  | .notGt => c != '>'
  | .notQuote => !(c == '"' || c == '\'')
  | .quote => c == '"' || c == '\''
  | .anyc => c != '\n'

/-- Tokens of a compiled pattern.  Every regular expression in the repository
is a sequence of these. -/
inductive Tok where
  /-- a literal character (case-insensitive match) -/
  | lit (c : Char)
  /-- exactly one character of a class -/
  | cls (p : ChCls)
  /-- greedy zero-or-more characters of a class -/
  | star (p : ChCls)
  /-- greedy one-or-more characters of a class -/
  | plus (p : ChCls)
  /-- an optional literal character (greedy) -/
  | optc (c : Char)
  /-- opening of the capturing group -/
  | gopen
  /-- closing of the capturing group -/
  | gclose
deriving DecidableEq, Repr

/-- Literal tokens of a string. -/
def lits (s : String) : List Tok := s.toList.map Tok.lit

/-- Length of the maximal prefix of the text lying in a class. -/
def takeRun (p : ChCls) : List Char → Nat
  | [] => 0
  | c :: cs => if p.mem c then takeRun p cs + 1 else 0

/-- First defined value of a function over a list of naturals. -/
def firstSomeN {α : Type} (f : Nat → Option α) : List Nat → Option α
  | [] => none
  | k :: ks => (f k).orElse (fun _ => firstSomeN f ks)

/-- Descending list n, n-1, ..., 0 (the greedy order of candidate lengths for
a starred class). -/
def desc0 : Nat → List Nat
  | 0 => [0]
  | n + 1 => (n + 1) :: desc0 n

/-- Descending list n, n-1, ..., 1 (the greedy order for a plus). -/
def descFrom1 : Nat → List Nat
  | 0 => []
  | n + 1 => (n + 1) :: descFrom1 n

/-- Matcher for a token sequence against a prefix of the text, with greedy
backtracking, mirroring the re module's behaviour on the pattern shapes of the
repository.  The flag records whether the position is inside the capturing
group and the accumulator collects the captured characters; the trailing text
after a full pattern match is ignored, as re.search does. -/
def matchT : List Tok → List Char → Bool → List Char → Option (List Char)
  | [], _, _, cap => some cap
  | .lit c :: ts, s, g, cap =>
    match s with
    | [] => none
    | x :: xs => if lowEq x c then matchT ts xs g (if g then cap ++ [x] else cap) else none
  | .cls p :: ts, s, g, cap =>
    match s with
    | [] => none
    | x :: xs => if p.mem x then matchT ts xs g (if g then cap ++ [x] else cap) else none
  | .star p :: ts, s, g, cap =>
    firstSomeN (fun k => matchT ts (s.drop k) g (if g then cap ++ s.take k else cap))
      (desc0 (takeRun p s))
  | .plus p :: ts, s, g, cap =>
    if takeRun p s == 0 then none
    else
      firstSomeN (fun k => matchT ts (s.drop k) g (if g then cap ++ s.take k else cap))
        (descFrom1 (takeRun p s))
  | .optc c :: ts, s, g, cap =>
    (match s with
     | [] => none
     | x :: xs => if lowEq x c then matchT ts xs g (if g then cap ++ [x] else cap) else none).orElse
      (fun _ => matchT ts s g cap)
  | .gopen :: ts, s, _, cap => matchT ts s true cap
  | .gclose :: ts, s, _, cap => matchT ts s false cap

/-- Leftmost search of a pattern in the text (re.search): try a match at each
start position, earliest first.  Returns the captured characters of the first
successful match. -/
def research (toks : List Tok) : List Char → Option (List Char)
  | [] => matchT toks [] false []
  | x :: xs => (matchT toks (x :: xs) false []).orElse (fun _ => research toks xs)

/-- Search for a pattern in the text, returning, on success, the value of the
match's first group when the pattern has one (the repository's code reads
match.group(1) if match.groups() else None). -/
def runPat (toks : List Tok) (s : List Char) : Option (Option String) :=
  (research toks s).map
    (fun cap => if toks.contains Tok.gopen then some (String.mk cap) else none)

/-- Group-plus-group-close token run for a captured word sequence, the shape
of the slug group of the registry's URL patterns. -/
def grpWord : List Tok := [Tok.gopen, Tok.plus ChCls.word, Tok.gclose]

/-- Pattern boards.greenhouse.io/(slug) of the URL registry. -/
def ghU1 : List Tok := lits "boards.greenhouse.io/" ++ grpWord

/-- Pattern job-boards.greenhouse.io/(slug) of the URL registry. -/
def ghU2 : List Tok := lits "job-boards.greenhouse.io/" ++ grpWord

/-- Pattern api.greenhouse.io of the URL registry (no group). -/
def ghU3 : List Tok := lits "api.greenhouse.io"

/-- Pattern jobs.lever.co/(slug) of the URL registry. -/
def levU : List Tok := lits "jobs.lever.co/" ++ grpWord

/-- Pattern jobs.ashbyhq.com/(slug) of the URL registry. -/
def ashU : List Tok := lits "jobs.ashbyhq.com/" ++ grpWord

/-- Pattern (slug).wd(digits).myworkdayjobs.com of the URL registry. -/
def wdU1 : List Tok :=
  grpWord ++ lits ".wd" ++ [Tok.plus ChCls.digit] ++ lits ".myworkdayjobs.com"

/-- Pattern (slug).myworkdaysite.com of the URL registry. -/
def wdU2 : List Tok := grpWord ++ lits ".myworkdaysite.com"

/-- The ATS_URL_PATTERNS registry: backends in insertion order, each with its
ordered pattern list. -/
def ATS_URL_PATTERNS : List (String × List (List Tok)) :=
  [("greenhouse", [ghU1, ghU2, ghU3]),
   ("lever", [levU]),
   ("ashby", [ashU]),
   ("workday", [wdU1, wdU2])]

/-- Inner loop of detect_from_url: first matching pattern of one backend. -/
def scanPatsU (ats : String) : List (List Tok) → List Char → Option (String × Option String)
  | [], _ => none
  | p :: rest, s =>
    match runPat p s with
    | some ext => some (ats, ext)
    | none => scanPatsU ats rest s

/-- Outer loop of detect_from_url: backends in registry order. -/
def scanBackendsU : List (String × List (List Tok)) → List Char → Option (String × Option String)
  | [], _ => none
  | (ats, pats) :: rest, s =>
    (scanPatsU ats pats s).orElse (fun _ => scanBackendsU rest s)

/-- ATSFixer.detect_from_url: detect the ATS type and slug from a URL using
the pattern registry; the slug component is None exactly when the matching
pattern has no group. -/
def detect_from_url (url : String) : Option (String × Option String) :=
  scanBackendsU ATS_URL_PATTERNS url.toList

/-- Greenhouse iframe indicator of the HTML registry. -/
def ghIfr : List Tok :=
  lits "<iframe" ++ [Tok.plus ChCls.notGt] ++ lits "src=" ++
    [Tok.cls ChCls.quote, Tok.gopen, Tok.star ChCls.notQuote] ++ lits "greenhouse.io" ++
    [Tok.star ChCls.notQuote, Tok.gclose, Tok.cls ChCls.quote]

/-- Greenhouse script indicator of the HTML registry. -/
def ghScr : List Tok :=
  lits "<script" ++ [Tok.plus ChCls.notGt] ++ lits "src=" ++
    [Tok.cls ChCls.quote, Tok.gopen, Tok.star ChCls.notQuote] ++ lits "greenhouse.io" ++
    [Tok.star ChCls.notQuote, Tok.gclose, Tok.cls ChCls.quote]

/-- Greenhouse embed-widget indicator of the HTML registry. -/
def ghEmb : List Tok :=
  lits "data-greenhouse-embed" ++ [Tok.star ChCls.notGt, Tok.cls ChCls.quote,
    Tok.gopen, Tok.plus ChCls.notQuote, Tok.gclose, Tok.cls ChCls.quote]

/-- Greenhouse bare-link indicator boards.greenhouse.io/(slug). -/
def ghLk1 : List Tok := lits "boards.greenhouse.io/" ++ grpWord

/-- Greenhouse bare-link indicator job-boards.greenhouse.io/(slug). -/
def ghLk2 : List Tok := lits "job-boards.greenhouse.io/" ++ grpWord

/-- Greenhouse inline-configuration indicator with the board token. -/
def ghCfg : List Tok :=
  lits "\"greenhouse\":" ++ [Tok.star ChCls.space, Tok.lit '\x7b', Tok.star ChCls.space] ++
    lits "\"board_token\":" ++ [Tok.star ChCls.space, Tok.lit '"',
      Tok.gopen, Tok.plus ChCls.word, Tok.gclose, Tok.lit '"']

/-- Lever iframe indicator of the HTML registry. -/
def levIfr : List Tok :=
  lits "<iframe" ++ [Tok.plus ChCls.notGt] ++ lits "src=" ++
    [Tok.cls ChCls.quote, Tok.gopen, Tok.star ChCls.notQuote] ++ lits "lever.co" ++
    [Tok.star ChCls.notQuote, Tok.gclose, Tok.cls ChCls.quote]

/-- Lever bare-link indicator jobs.lever.co/(slug). -/
def levLk : List Tok := lits "jobs.lever.co/" ++ grpWord

/-- Lever posting-api indicator api.lever.co/v0/postings/(slug). -/
def levApi : List Tok := lits "api.lever.co/v0/postings/" ++ grpWord

/-- Ashby iframe indicator of the HTML registry. -/
def ashIfr : List Tok :=
  lits "<iframe" ++ [Tok.plus ChCls.notGt] ++ lits "src=" ++
    [Tok.cls ChCls.quote, Tok.gopen, Tok.star ChCls.notQuote] ++ lits "ashbyhq.com" ++
    [Tok.star ChCls.notQuote, Tok.gclose, Tok.cls ChCls.quote]

/-- Ashby bare-link indicator jobs.ashbyhq.com/(slug). -/
def ashLk : List Tok := lits "jobs.ashbyhq.com/" ++ grpWord

/-- Workday iframe indicator of the HTML registry. -/
def wdIfr : List Tok :=
  lits "<iframe" ++ [Tok.plus ChCls.notGt] ++ lits "src=" ++
    [Tok.cls ChCls.quote, Tok.gopen, Tok.star ChCls.notQuote] ++ lits "workday" ++
    [Tok.star ChCls.notQuote, Tok.gclose, Tok.cls ChCls.quote]

/-- Workday link indicator (slug).wd(digits).myworkdayjobs.com. -/
def wdLk : List Tok :=
  grpWord ++ lits ".wd" ++ [Tok.plus ChCls.digit] ++ lits ".myworkdayjobs.com"

/-- The HTML_INDICATORS registry: backends in insertion order, each with its
ordered list of (pattern, indicator kind) pairs exactly as in the source. -/
def HTML_INDICATORS : List (String × List (List Tok × String)) :=
  [("greenhouse",
     [(ghIfr, "iframe"), (ghScr, "script"), (ghEmb, "embed"),
      (ghLk1, "link"), (ghLk2, "link"), (ghCfg, "config")]),
   ("lever", [(levIfr, "iframe"), (levLk, "link"), (levApi, "api")]),
   ("ashby", [(ashIfr, "iframe"), (ashLk, "link")]),
   ("workday", [(wdIfr, "iframe"), (wdLk, "link")])]

/-- Inner loop of detect_from_html: first matching indicator of one backend. -/
def scanPats (ats : String) : List (List Tok × String) → List Char → Option (String × Option String)
  | [], _ => none
  | (p, _) :: rest, s =>
    match runPat p s with
    | some ext => some (ats, ext)
    | none => scanPats ats rest s

/-- Outer loop of detect_from_html: backends in registry order. -/
def scanBackends : List (String × List (List Tok × String)) → List Char → Option (String × Option String)
  | [], _ => none
  | (ats, pats) :: rest, s =>
    (scanPats ats pats s).orElse (fun _ => scanBackends rest s)

/-- ATSFixer.detect_from_html: detect an embedded ATS from page markup; the
extracted value is the first group of the first indicator that matches, in
registry order. -/
def detect_from_html (html : String) : Option (String × Option String) :=
  scanBackends HTML_INDICATORS html.toList

/-- ATSFixer.build_direct_url: direct board URL for a backend type and slug;
empty for a backend without a template. -/
def build_direct_url (ats_type slug : String) : String :=
  if ats_type == "greenhouse" then "https://boards.greenhouse.io/" ++ slug
  else if ats_type == "lever" then "https://jobs.lever.co/" ++ slug
  else if ats_type == "ashby" then "https://jobs.ashbyhq.com/" ++ slug
  else ""

/-- JSON values, as returned by response.json(). -/
inductive JVal where
  /-- null -/
  | jnull
  /-- a boolean -/
  | jbool (b : Bool)
  /-- a number -/
  | jnum (n : Int)
  /-- a string -/
  | jstr (s : String)
  /-- an array -/
  | jarr (xs : List JVal)
  /-- an object -/
  | jobj (fs : List (String × JVal))

/-- Python dict.get with a default; raises (AttributeError) on a non-dict,
modelled as an Except error. -/
def pyGet (v : JVal) (k : String) (dflt : JVal) : Except Unit JVal :=
  match v with
  | .jobj fs =>
    match fs.lookup k with
    | some w => .ok w
    | none => .ok dflt
  | _ => .error ()

/-- Python len, defined on sequences and mappings, raising otherwise. -/
def pyLen (v : JVal) : Except Unit Nat :=
  match v with
  | .jarr xs => .ok xs.length
  | .jstr s => .ok s.length
  | .jobj fs => .ok fs.length
  | _ => .error ()

/-- Python truthiness of a JSON value. -/
def pyTruthy (v : JVal) : Bool :=
  match v with
  | .jnull => false
  | .jbool b => b
  | .jnum n => n != 0
  | .jstr s => s != ""
  | .jarr xs => !xs.isEmpty
  | .jobj fs => !fs.isEmpty

/-- Outcome of one HTTP request for a JSON endpoint: a network failure, or a
status code together with the parsed body (none when response.json() itself
raises). -/
def NetResult : Type := Except Unit (Nat × Option JVal)

/-- ATSFixer.verify_greenhouse on the response of the boards API request:
HTTP 200 with a JSON body yields (True, len(data.get("jobs", []))); every
failure path (network error, non-200 status, a body response.json() raises
on, a body on which the get or the len raises) is swallowed to (False, 0). -/
def verify_greenhouse (r : NetResult) : Bool × Nat :=
  match r with
  | .error _ => (false, 0)
  | .ok (status, body) =>
    if status == 200 then
      match body with
      | none => (false, 0)
      | some data =>
        match pyGet data "jobs" (JVal.jarr []) with
        | .error _ => (false, 0)
        | .ok jobs =>
          match pyLen jobs with
          | .error _ => (false, 0)
          | .ok n => (true, n)
    else (false, 0)

/-- ATSFixer.verify_lever on the response of the postings API request: HTTP
200 with a JSON list yields (True, len(data)); a 200 body that is not a list
falls through to (False, 0), as does every failure path. -/
def verify_lever (r : NetResult) : Bool × Nat :=
  match r with
  | .error _ => (false, 0)
  | .ok (status, body) =>
    if status == 200 then
      match body with
      | none => (false, 0)
      | some data =>
        match data with
        | .jarr xs => (true, xs.length)
        | _ => (false, 0)
    else (false, 0)

/-- ATSFixer.verify_ashby on the response of the GraphQL request: HTTP 200
with a truthy data.jobBoard yields (True, len(jobBoard.get("jobPostings",
[]))); a falsy jobBoard falls through to (False, 0), as does every failure
path. -/
def verify_ashby (r : NetResult) : Bool × Nat :=
  match r with
  | .error _ => (false, 0)
  | .ok (status, body) =>
    if status == 200 then
      match body with
      | none => (false, 0)
      | some data =>
        match pyGet data "data" (JVal.jobj []) with
        | .error _ => (false, 0)
        | .ok d1 =>
          match pyGet d1 "jobBoard" (JVal.jobj []) with
          | .error _ => (false, 0)
          | .ok jb =>
            if pyTruthy jb then
              match pyGet jb "jobPostings" (JVal.jarr []) with
              | .error _ => (false, 0)
              | .ok jp =>
                match pyLen jp with
                | .error _ => (false, 0)
                | .ok n => (true, n)
            else (false, 0)
    else (false, 0)

/-- Environment of the resolver: the response each backend's verification
request receives for a slug, and the response a GET of a page URL receives
(status and body text). -/
structure ResolverEnv where
  verifyResp : String → String → NetResult
  pageResp : String → Except Unit (Nat × String)

/-- ATSFixer.verify_ats: dispatch to the backend's verifier; a backend
without a registered verifier (such as workday) yields (False, 0). -/
def verify_ats (env : ResolverEnv) (ats_type slug : String) : Bool × Nat :=
  if ats_type == "greenhouse" then verify_greenhouse (env.verifyResp ats_type slug)
  else if ats_type == "lever" then verify_lever (env.verifyResp ats_type slug)
  else if ats_type == "ashby" then verify_ashby (env.verifyResp ats_type slug)
  else (false, 0)

/-- Split a character list at the first occurrence of a separator: the part
before it, and the part after it when the separator occurs. -/
def splitFirst (sep : Char) : List Char → List Char × Option (List Char)
  | [] => ([], none)
  | c :: cs =>
    if c == sep then ([], some cs)
    else
      let (a, b) := splitFirst sep cs
      (c :: a, b)

/-- Split into segments at every occurrence of a separator, keeping empty
segments, as Python str.split with an explicit separator does. -/
def splitOnC (sep : Char) : List Char → List (List Char)
  | [] => [[]]
  | c :: cs =>
    let r := splitOnC sep cs
    if c == sep then [] :: r
    else
      match r with
      | h :: t => (c :: h) :: t
      | [] => [[c]]

/-- Components of a parsed URL (the params component of the Python tuple is
not modelled; no URL handled in this development carries one). -/
structure UrlParts where
  scheme : String
  netloc : String
  path : String
  query : String
  fragment : String

/-- Characters admissible in a URL scheme. -/
def schemeChar (c : Char) : Bool :=
  c.isAlpha || c.isDigit || c == '+' || c == '-' || c == '.'

/-- Model of urllib.parse.urlparse for the absolute and relative http-style
URLs the repository handles: fragment split first, then a scheme when a valid
one precedes the first colon, then a netloc after a double slash up to the
next slash or question mark, then the query after the first question mark. -/
def urlparseM (u : String) : UrlParts :=
  let l := u.toList
  let (preFrag, fragO) := splitFirst '#' l
  let frag := fragO.getD []
  let (schemeL, rest1) :=
    match splitFirst ':' preFrag with
    | (pre, some post) =>
      if pre ≠ [] ∧ pre.head?.elim false Char.isAlpha ∧ pre.all schemeChar
      then (pre.map pyLowerC, post)
      else ([], preFrag)
    | (_, none) => ([], preFrag)
  let (netlocL, rest2) :=
    match rest1 with
    | '/' :: '/' :: r =>
      (r.takeWhile (fun c => !(c == '/' || c == '?')),
       r.dropWhile (fun c => !(c == '/' || c == '?')))
    | _ => ([], rest1)
  let (pathL, queryO) := splitFirst '?' rest2
  ⟨String.mk schemeL, String.mk netlocL, String.mk pathL,
   String.mk (queryO.getD []), String.mk frag⟩

/-- Model of urllib.parse.urlunparse (without params). -/
def urlunparseM (p : UrlParts) : String :=
  let url0 := p.path
  let url1 :=
    if p.netloc ≠ "" ∨ url0.toList.take 2 = ['/', '/'] then
      "//" ++ p.netloc ++
        (if url0 ≠ "" ∧ url0.toList.head? ≠ some '/' then "/" ++ url0 else url0)
    else url0
  let url2 := if p.scheme ≠ "" then p.scheme ++ ":" ++ url1 else url1
  let url3 := if p.query ≠ "" then url2 ++ "?" ++ p.query else url2
  if p.fragment ≠ "" then url3 ++ "#" ++ p.fragment else url3

/-- Keep the first and last segment, dropping empty middle segments (the
redundant-slash cleanup of the stdlib join). -/
def filterMiddle (segs : List (List Char)) : List (List Char) :=
  match segs with
  | [] => []
  | [a] => [a]
  | a :: rest =>
    match rest.reverse with
    | [] => [a]
    | lastSeg :: midRev =>
      a :: (midRev.reverse.filter (fun x => !x.isEmpty)) ++ [lastSeg]

/-- Dot-segment resolution of the stdlib join: double dots pop, single dots
are skipped, everything else is appended. -/
def resolveSegs (segs : List (List Char)) : List (List Char) :=
  segs.foldl
    (fun acc seg =>
      if seg = ['.', '.'] then acc.dropLast
      else if seg = ['.'] then acc
      else acc ++ [seg])
    []

/-- Model of urllib.parse.urljoin (without params), following the stdlib
branch structure: absolute URLs and URLs with a netloc are taken as they are,
an empty path inherits the base path, and a relative path is merged with the
base path with dot-segment resolution. -/
def urljoinM (base url : String) : String :=
  if base == "" then url
  else if url == "" then base
  else
    let b := urlparseM base
    let u := urlparseM url
    let scheme := if u.scheme == "" then b.scheme else u.scheme
    if scheme ≠ b.scheme then url
    else if u.netloc ≠ "" then urlunparseM ⟨scheme, u.netloc, u.path, u.query, u.fragment⟩
    else if u.path == "" then
      urlunparseM ⟨scheme, b.netloc, b.path,
        (if u.query ≠ "" then u.query else b.query), u.fragment⟩
    else
      let baseParts0 := splitOnC '/' b.path.toList
      let baseParts :=
        if baseParts0.getLast? = some [] then baseParts0 else baseParts0.dropLast
      let psegs := splitOnC '/' u.path.toList
      let segments :=
        if u.path.toList.head? = some '/' then psegs
        else filterMiddle (baseParts ++ psegs)
      let resolved0 := resolveSegs segments
      let resolved :=
        if segments.getLast? = some ['.'] ∨ segments.getLast? = some ['.', '.'] then
          resolved0 ++ [[]]
        else resolved0
      let joined := List.intercalate ['/'] resolved
      urlunparseM ⟨scheme, b.netloc, String.mk (if joined.isEmpty then ['/'] else joined),
        u.query, u.fragment⟩

/-- GenericCareerCrawler._normalize_url: netloc plus path with every trailing
slash stripped; the query string and fragment are discarded by the parse. -/
def normalize_url (url : String) : String :=
  let p := urlparseM url
  String.mk (((p.netloc.toList ++ p.path.toList).reverse.dropWhile (fun c => c == '/')).reverse)

/-- Strip leading and trailing slashes (Python str.strip with a slash). -/
def stripSlashes (l : List Char) : List Char :=
  ((l.dropWhile (fun c => c == '/')).reverse.dropWhile (fun c => c == '/')).reverse

/-- ATSFixer.extract_slug_from_url: first non-empty path segment of the URL,
when there is one. -/
def extract_slug_from_url (url : String) (ats_type : String) : Option String :=
  let p := urlparseM url
  match splitOnC '/' (stripSlashes p.path.toList) with
  | h :: _ => if h ≠ [] then some (String.mk h) else none
  | [] => none

/-- Prefix test on code-point lists. -/
def startsWithN : List Nat → List Nat → Bool
  | [], _ => true
  | _ :: _, [] => false
  | a :: as, b :: bs => a == b && startsWithN as bs

/-- Contiguous-substring test on code-point lists (Python's in operator on
strings). -/
def isSub (needle : List Nat) : List Nat → Bool
  | [] => needle.isEmpty
  | b :: bs => startsWithN needle (b :: bs) || isSub needle bs

/-- Whitespace test on a code point. -/
def wsN (n : Nat) : Bool :=
  decide (n = 32 ∨ n = 9 ∨ n = 10 ∨ n = 11 ∨ n = 12 ∨ n = 13)

/-- Helper of the whitespace split on code points, carrying the reversed
current word. -/
def splitWSAux : List Nat → List Nat → List (List Nat)
  | [], acc => if acc.isEmpty then [] else [acc.reverse]
  | n :: rest, acc =>
    if wsN n then
      (if acc.isEmpty then splitWSAux rest [] else acc.reverse :: splitWSAux rest [])
    else splitWSAux rest (n :: acc)

/-- Python str.split with no argument on code points: maximal runs of
non-whitespace, empty runs dropped. -/
def splitWS (l : List Nat) : List (List Nat) := splitWSAux l []

/-- Helper of the whitespace split on characters. -/
def splitWSstrAux : List Char → List Char → List String
  | [], acc => if acc.isEmpty then [] else [String.mk acc.reverse]
  | c :: rest, acc =>
    if pyIsSpace c then
      (if acc.isEmpty then splitWSstrAux rest []
       else String.mk acc.reverse :: splitWSstrAux rest [])
    else splitWSstrAux rest (c :: acc)

/-- Python str.split with no argument, on strings. -/
def pySplitWS (s : String) : List String := splitWSstrAux s.toList []

/-- Python str.replace of the space character by a replacement string. -/
def pyReplaceSpace (s rep : String) : String :=
  String.mk (s.toList.bind (fun c => if c == ' ' then rep.toList else [c]))

/-- Keep-first deduplication, standing in for Python's list(set(...)) whose
iteration order is unspecified. -/
def dedupKeepFirst : List String → List String → List String
  | [], _ => []
  | x :: xs, seen =>
    if seen.contains x then dedupKeepFirst xs seen
    else x :: dedupKeepFirst xs (x :: seen)

/-- Suffix test on strings (Python str.endswith). -/
def endsWithS (s suf : String) : Bool :=
  startsWithN (suf.toList.map chN).reverse (s.toList.map chN).reverse

/-- The three candidate Workday URLs tried for a company name (lower-cased,
spaces removed), in source order wd5, wd1, wd3. -/
def workday_urls (company_name : String) : List String :=
  let nm := pyReplaceSpace (lowerStr company_name) ""
  ["https://" ++ nm ++ ".wd5.myworkdayjobs.com/" ++ nm,
   "https://" ++ nm ++ ".wd1.myworkdayjobs.com/" ++ nm,
   "https://" ++ nm ++ ".wd3.myworkdayjobs.com/" ++ nm]

/-- Loop of check_workday over the candidate URLs: a network failure moves on
to the next candidate; a 200 response whose body contains the workday marker
returns the URL with the sentinel count. -/
def wdLoop (fetch : String → Except Unit (Nat × String)) : List String → Option (String × Int)
  | [] => none
  | u :: rest =>
    match fetch u with
    | .ok (st, text) =>
      if st == 200 && isSub (lowCodes "workday") (lowCodes text) then some (u, -1)
      else wdLoop fetch rest
    | .error _ => wdLoop fetch rest

/-- check_workday of investigate_unverified: infer a Workday board's
existence by fetching candidate pages and looking for the marker string; the
reported count is the sentinel -1, meaning found but not counted. -/
def check_workday (fetch : String → Except Unit (Nat × String))
    (career_url company_name : String) : Option (String × Int) :=
  wdLoop fetch (workday_urls company_name)

/-- Information about a detected ATS (the ATSInfo dataclass). -/
structure ATSInfo where
  ats_type : String
  direct_url : String
  job_count : Nat
  verified : Bool
deriving DecidableEq, Repr

/-- ATSFixer._generate_slug_variations: slug guesses from the company name.
The head-word variant indexes split()[0], which raises IndexError when the
lower-cased name contains a space but splits into no words; that partiality
is the error case.  Python's unspecified set iteration order in
list(set(variations)) is modelled as first-occurrence order. -/
def generate_slug_variations (company_name : String) : Except Unit (List String) :=
  let nm := lowerStr company_name
  match (if nm.toList.contains ' ' then
           match pySplitWS nm with
           | [] => Except.error ()
           | w :: _ => Except.ok w
         else Except.ok nm : Except Unit String) with
  | .error e => .error e
  | .ok v4 =>
    let base :=
      [pyReplaceSpace nm "", pyReplaceSpace nm "-", pyReplaceSpace nm "_", v4]
    let extra :=
      ([" ai", " inc", " labs", " technologies"] : List String).flatMap
        (fun suf =>
          if endsWithS nm suf then
            let b := String.mk (nm.toList.take (nm.toList.length - suf.toList.length))
            [pyReplaceSpace b "", pyReplaceSpace b "-"]
          else [])
    .ok (dedupKeepFirst (base ++ extra) [])

/-- Stage 1 of analyze_company: classify the supplied career URL itself and
verify the candidate when it carries a truthy slug. -/
def stage1 (env : ResolverEnv) (career_url : String) : Option ATSInfo :=
  match detect_from_url career_url with
  | none => none
  | some (ats_type, oslug) =>
    match oslug with
    | none => none
    | some slug =>
      if slug ≠ "" then
        if (verify_ats env ats_type slug).1 then
          some ⟨ats_type,
            if build_direct_url ats_type slug = "" then career_url
            else build_direct_url ats_type slug,
            (verify_ats env ats_type slug).2, true⟩
        else none
      else none

/-- Stage 2 of analyze_company: fetch the career page (exceptions swallowed),
classify its markup, derive the slug (from the URL's first path segment when
the extracted value contains a dot), verify. -/
def stage2 (env : ResolverEnv) (career_url : String) : Option ATSInfo :=
  match env.pageResp career_url with
  | .error _ => none
  | .ok (status, html) =>
    if status == 200 then
      match detect_from_html html with
      | none => none
      | some (ats_type, extractedO) =>
        match (match extractedO with
               | some e =>
                 if e ≠ "" ∧ e.toList.contains '.' then extract_slug_from_url e ats_type
                 else some e
               | none => none) with
        | none => none
        | some slug =>
          if slug ≠ "" then
            if (verify_ats env ats_type slug).1 then
              some ⟨ats_type, build_direct_url ats_type slug,
                (verify_ats env ats_type slug).2, true⟩
            else none
          else none
    else none

/-- Inner loop of stage 3: try each slug variation against one backend,
accepting the first verified candidate with a positive count. -/
def tryVars (env : ResolverEnv) (ats_type : String) : List String → Option ATSInfo
  | [] => none
  | slug :: rest =>
    let vr := verify_ats env ats_type slug
    if vr.1 ∧ 0 < vr.2 then some ⟨ats_type, build_direct_url ats_type slug, vr.2, true⟩
    else tryVars env ats_type rest

/-- Stage 3 of analyze_company: the name-derived-guess loop over the three
REST-style backends. -/
def step3loop (env : ResolverEnv) (vars : List String) : Option ATSInfo :=
  match tryVars env "greenhouse" vars with
  | some info => some info
  | none =>
    match tryVars env "lever" vars with
    | some info => some info
    | none => tryVars env "ashby" vars

/-- ATSFixer.analyze_company: the four-stage resolver.  The Except layer
carries the one uncaught exception of the source (the slug-variation
IndexError); every other failure falls through to the unverified result
carrying the original backend type and career URL. -/
def analyze_company (env : ResolverEnv) (name career_url current_ats : String) :
    Except Unit ATSInfo :=
  match stage1 env career_url with
  | some info => .ok info
  | none =>
    match stage2 env career_url with
    | some info => .ok info
    | none =>
      match generate_slug_variations name with
      | .error e => .error e
      | .ok vars =>
        match step3loop env vars with
        | some info => .ok info
        | none => .ok ⟨current_ats, career_url, 0, false⟩

/-- JobFilters of models.py. -/
structure JobFilters where
  query : String
  location : Option String
  remote_only : Bool
  experience_level : Option String
  days_ago : Int
  limit : Int
deriving DecidableEq, Repr

/-- Job of models.py. -/
structure Job where
  title : String
  company : String
  location : String
  description : String
  url : String
  posted_date : Option Nat
  source : String
  remote : Bool
  experience_level : String
deriving DecidableEq, Repr

/-- A hyperlink element of a crawled page, modelled at the interface the
extraction pipeline consumes: its href attribute, the title its DOM heuristic
(_extract_title) yields (empty when none is found), and the location its DOM
heuristic (_extract_location) yields (empty when none is found). -/
structure CrawlLink where
  href : String
  title : String
  location : String
deriving DecidableEq, Repr

/-- The JOB_URL_PATTERNS list of the crawler, in source order. -/
def JOB_URL_PATTERNS : List (List Tok) :=
  [lits "/job" ++ [Tok.optc 's', Tok.lit '/'],
   lits "/career" ++ [Tok.optc 's', Tok.lit '/'],
   lits "/position" ++ [Tok.optc 's', Tok.lit '/'],
   lits "/opening" ++ [Tok.optc 's', Tok.lit '/'],
   lits "/opportunitie" ++ [Tok.optc 's', Tok.lit '/'],
   lits "/details/",
   lits "/job-details/",
   lits "/apply/",
   lits "/requisition/",
   lits "/posting/",
   lits "greenhouse.io/" ++ [Tok.star ChCls.anyc] ++ lits "jobs",
   lits "lever.co/",
   lits "ashbyhq.com/",
   lits "workable.com/",
   lits "smartrecruiters.com/",
   lits "myworkday",
   lits "icims.com/"]

/-- The EXCLUDE_PATTERNS list of the crawler, in source order. -/
def EXCLUDE_PATTERNS : List (List Tok) :=
  [lits "/search", lits "/filter", lits "/category", lits "/team",
   lits "/location", lits "/department", lits "/login", lits "/signin",
   lits "/about", lits "/blog", lits "/news", lits "#", lits "javascript:"]

/-- GenericCareerCrawler._is_job_url: exclusions are checked first and are
authoritative; otherwise the lower-cased URL must match a job pattern. -/
def is_job_url (url : String) : Bool :=
  let ul := url.toList.map pyLowerC
  if EXCLUDE_PATTERNS.any (fun p => (research p ul).isSome) then false
  else JOB_URL_PATTERNS.any (fun p => (research p ul).isSome)

/-- GenericCareerCrawler._matches_query: the lower-cased title must contain
at least one of the query terms (substring containment, logical OR). -/
def matches_query (title : String) (query_terms : List (List Nat)) : Bool :=
  query_terms.any (fun t => isSub t (lowCodes title))

/-- Query terms of a crawl: the filter's query string lower-cased and
whitespace-split. -/
def queryTerms (q : String) : List (List Nat) := splitWS (lowCodes q)

/-- GenericCareerCrawler._infer_level: experience level from title cues;
senior cues first, then entry, then mid, first matching tier wins. -/
def infer_level (title : String) : String :=
  let t := lowCodes title
  if (["senior", "sr.", "sr ", "staff", "principal", "lead", " iv", " v"] : List String).any
      (fun k => isSub (lowCodes k) t) then "senior"
  else if (["junior", "jr.", "jr ", "entry", "associate", "new grad", " i ", " 1 "] : List String).any
      (fun k => isSub (lowCodes k) t) then "entry"
  else if ([" ii", " 2", " iii", " 3", "mid"] : List String).any
      (fun k => isSub (lowCodes k) t) then "mid"
  else ""

/-- Truthiness of the optional location filter (a configured, non-empty
filter string). -/
def locSet (o : Option String) : Bool :=
  match o with
  | none => false
  | some s => s != ""

/-- Remote flag of a link: the extracted location contains "remote"
(case-insensitively); an absent location yields False. -/
def linkRemote (loc : String) : Bool :=
  if loc == "" then false else isSub (lowCodes "remote") (lowCodes loc)

/-- The JobRecord built for an accepted link. -/
def mkCrawlJob (company full_url : String) (l : CrawlLink) : Job :=
  ⟨l.title, company, l.location, "", full_url, none, "crawler",
   linkRemote l.location, infer_level l.title⟩

/-- The rejection test of the filter-application step, exactly as nested in
the source: a link is dropped when remote-only is set, the link is not
remote, a non-empty location filter is configured, the extracted location is
non-empty, and the lower-cased filter is not a substring of the lower-cased
location. -/
def filterRejects (filters : JobFilters) (loc : String) : Bool :=
  filters.remote_only && !(linkRemote loc) && locSet filters.location &&
    (loc != "") && !(isSub (lowCodes (filters.location.getD "")) (lowCodes loc))

/-- The per-link loop of GenericCareerCrawler._extract_jobs: URL check,
deduplication on the normalized joined URL, title check, query check, filter
check, then append, stopping once the limit is reached. -/
def extractGo (company base_url : String) (filters : JobFilters)
    (query_terms : List (List Nat)) :
    List CrawlLink → List String → List Job → List Job
  | [], _, jobs => jobs
  | l :: rest, seen, jobs =>
    if !(is_job_url l.href) then extractGo company base_url filters query_terms rest seen jobs
    else if seen.contains (normalize_url (urljoinM base_url l.href)) then
      extractGo company base_url filters query_terms rest seen jobs
    else if l.title == "" then
      extractGo company base_url filters query_terms rest
        (normalize_url (urljoinM base_url l.href) :: seen) jobs
    else if !(matches_query l.title query_terms) then
      extractGo company base_url filters query_terms rest
        (normalize_url (urljoinM base_url l.href) :: seen) jobs
    else if filterRejects filters l.location then
      extractGo company base_url filters query_terms rest
        (normalize_url (urljoinM base_url l.href) :: seen) jobs
    else if filters.limit ≤
        ((jobs ++ [mkCrawlJob company (urljoinM base_url l.href) l]).length : Int) then
      jobs ++ [mkCrawlJob company (urljoinM base_url l.href) l]
    else
      extractGo company base_url filters query_terms rest
        (normalize_url (urljoinM base_url l.href) :: seen)
        (jobs ++ [mkCrawlJob company (urljoinM base_url l.href) l])

/-- GenericCareerCrawler._extract_jobs over the collected links of a page. -/
def extract_jobs (company base_url : String) (filters : JobFilters)
    (links : List CrawlLink) : List Job :=
  extractGo company base_url filters (queryTerms filters.query) links [] []

/-- Analysis instrument: the text has two adjacent characters whose lowered
codes are those of the given pair. -/
def hasPairS (a b : Char) : List Char → Bool
  | x :: y :: rest => (lowEq x a && lowEq y b) || hasPairS a b (y :: rest)
  | _ => false

/-- Analysis instrument: the pattern contains two adjacent literal tokens
equal to the given pair. -/
def hasAdjPair (a b : Char) : List Tok → Bool
  | [] => false
  | t :: rest =>
    (t == Tok.lit a && rest.head? == some (Tok.lit b)) || hasAdjPair a b rest

/-- The HTML indicator registry flattened to one ordered list of
(backend, pattern, kind) triples, preserving the nested scan order. -/
def HTML_FLAT : List (String × List Tok × String) :=
  HTML_INDICATORS.flatMap (fun e => e.2.map (fun pk => (e.1, pk.1, pk.2)))

/-- First-match scan over a flattened indicator list. -/
def detectFlat : List (String × List Tok × String) → List Char → Option (String × Option String)
  | [], _ => none
  | (ats, p, _) :: rest, s =>
    match runPat p s with
    | some ext => some (ats, ext)
    | none => detectFlat rest s

/-- Deduplication key of a produced JobRecord: the normalized form of its
URL. -/
def jobKey (j : Job) : String := normalize_url j.url

/-- The structurally valid response body of a backend whose posting list is
empty. -/
def emptyBoard (ats : String) : JVal :=
  if ats == "greenhouse" then .jobj [("jobs", .jarr [])]
  else if ats == "lever" then .jarr []
  else .jobj [("data", .jobj [("jobBoard", .jobj [("jobPostings", .jarr [])])])]

/-- An environment in which every network request fails. -/
def noNetEnv : ResolverEnv := ⟨fun _ _ => .error (), fun _ => .error ()⟩

/-- An environment in which every verification request resolves with HTTP 200
and an empty posting list, and every page fetch fails. -/
def emptyBoardEnv : ResolverEnv :=
  ⟨fun ats _ => .ok (200, some (emptyBoard ats)), fun _ => .error ()⟩

/-- An environment in which lever boards report three postings and every
other backend resolves with an empty posting list. -/
def guessEnv : ResolverEnv :=
  ⟨fun ats _ =>
    if ats == "lever" then .ok (200, some (JVal.jarr [JVal.jnull, JVal.jnull, JVal.jnull]))
    else .ok (200, some (emptyBoard ats)),
   fun _ => .error ()⟩

/-- A page-fetch oracle on which exactly the first workday candidate URL of
the company acme resolves, with the marker in the body. -/
def wdFetch : String → Except Unit (Nat × String) :=
  fun u =>
    if u == "https://acme.wd5.myworkdayjobs.com/acme" then .ok (200, "the Workday portal")
    else .error ()

/-- Markup carrying both an embed-widget indicator and an iframe indicator of
the greenhouse backend. -/
def c3Markup : String :=
  "<div data-greenhouse-embed=\"acme\"></div><iframe id=x src=\"https://boards.greenhouse.io/emb\"></iframe>"

/-- Markup carrying only the embed-widget indicator of the greenhouse
backend. -/
def c3EmbedOnly : String := "<div data-greenhouse-embed=\"acme\"></div>"

/-- A character always matches itself case-insensitively. -/
theorem lowEq_self (c : Char) : lowEq c c = true := by
  simp [lowEq]

/-- Matching a literal prefix consumes exactly that prefix. -/
theorem matchT_lits_append (p : List Char) (ts : List Tok) (s cap : List Char) :
    matchT (p.map Tok.lit ++ ts) (p ++ s) false cap = matchT ts s false cap := by
  induction p generalizing cap with
  | nil => rfl
  | cons c cs ih =>
    simp only [List.map_cons, List.cons_append, matchT, lowEq_self, if_true]
    exact ih cap

/-- A run over the whole text when every character lies in the class. -/
theorem takeRun_full (p : ChCls) (s : List Char) (h : ∀ c ∈ s, p.mem c = true) :
    takeRun p s = s.length := by
  induction s with
  | nil => rfl
  | cons c cs ih =>
    simp only [takeRun, h c (by simp), if_true, List.length_cons]
    have := ih (fun x hx => h x (by simp [hx]))
    omega

/-- The captured word group consumes a non-empty all-word text entirely,
capturing it. -/
theorem matchT_grpWord (s : List Char) (h1 : s ≠ []) (h2 : ∀ c ∈ s, wordChar c = true) :
    matchT grpWord s false [] = some s := by
  have hmem : ∀ c ∈ s, ChCls.mem ChCls.word c = true := fun c hc => h2 c hc
  have hrun : takeRun ChCls.word s = s.length := takeRun_full _ _ hmem
  obtain ⟨c, cs, rfl⟩ := List.exists_cons_of_ne_nil h1
  show matchT [Tok.gopen, Tok.plus ChCls.word, Tok.gclose] (c :: cs) false [] = some (c :: cs)
  simp only [matchT, hrun]
  have hlen : (c :: cs).length = cs.length + 1 := rfl
  rw [hlen]
  simp only [descFrom1, firstSomeN]
  rw [show (cs.length + 1) = (c :: cs).length from rfl]
  simp [matchT, List.drop_length, List.take_length]

/-- A literal token fails on a character it does not match. -/
theorem matchT_lit_ne (x c : Char) (ts : List Tok) (xs : List Char) (g : Bool)
    (cap : List Char) (h : lowEq x c = false) :
    matchT (Tok.lit c :: ts) (x :: xs) g cap = none := by
  simp [matchT, h]


/-- Unfolding of search at a non-empty position. -/
theorem research_cons (toks : List Tok) (x : Char) (xs : List Char) :
    research toks (x :: xs) =
      (matchT toks (x :: xs) false []).orElse (fun _ => research toks xs) := rfl

/-- Search skips every start position whose first character cannot begin the
pattern. -/
theorem research_skip_all (c : Char) (ts : List Tok) (p s : List Char)
    (hp : ∀ x ∈ p, lowEq x c = false) :
    research (Tok.lit c :: ts) (p ++ s) = research (Tok.lit c :: ts) s := by
  induction p with
  | nil => rfl
  | cons x xs ih =>
    have h1 : matchT (Tok.lit c :: ts) (x :: (xs ++ s)) false [] = none :=
      matchT_lit_ne _ _ _ _ _ _ (hp x (by simp))
    rw [List.cons_append, research_cons, h1]
    exact ih (fun y hy => hp y (by simp [hy]))

/-- A successful match at the current position is what search returns. -/
theorem research_head_some (toks : List Tok) (s r : List Char)
    (h : matchT toks s false [] = some r) : research toks s = some r := by
  cases s with
  | nil => simpa [research] using h
  | cons x xs => rw [research_cons, h]; rfl

/-- A non-empty string has a non-empty character list. -/
theorem toList_ne_nil (s : String) (h : s ≠ "") : s.toList ≠ [] := by
  intro hd
  apply h
  cases s with
  | mk data =>
    simp only [String.toList] at hd
    simp [hd]

/-- A defined first value comes from some element of the list. -/
theorem firstSomeN_ne_none {α : Type} (f : Nat → Option α) (l : List Nat)
    (h : firstSomeN f l ≠ none) : ∃ k ∈ l, f k ≠ none := by
  induction l with
  | nil => simp [firstSomeN] at h
  | cons k ks ih =>
    cases hk : f k with
    | some v => exact ⟨k, by simp, by simp [hk]⟩
    | none =>
      have h2 : firstSomeN f ks ≠ none := by simpa [firstSomeN, hk] using h
      obtain ⟨k', hk', hf⟩ := ih h2
      exact ⟨k', by simp [hk'], hf⟩

/-- A pair in a tail is a pair in the list. -/
theorem hasPairS_cons_mono (a b x : Char) (l : List Char) (h : hasPairS a b l = true) :
    hasPairS a b (x :: l) = true := by
  cases l with
  | nil => simp [hasPairS] at h
  | cons y t => simp [hasPairS, h]

/-- A pair in a dropped suffix is a pair in the list. -/
theorem hasPairS_drop_mono (a b : Char) : ∀ (k : Nat) (l : List Char),
    hasPairS a b (l.drop k) = true → hasPairS a b l = true := by
  intro k
  induction k with
  | zero => intro l h; simpa using h
  | succ k ih =>
    intro l h
    cases l with
    | nil => simpa using h
    | cons x xs => exact hasPairS_cons_mono _ _ _ _ (ih xs (by simpa using h))

/-- A successful match of a non-empty pattern leaves the tail pattern
matchable on some suffix of the text. -/
theorem matchT_tail_suffix (t : Tok) (rest : List Tok) (s : List Char) (g : Bool)
    (cap : List Char) (hm : matchT (t :: rest) s g cap ≠ none) :
    ∃ k g' cap', matchT rest (List.drop k s) g' cap' ≠ none := by
  cases t with
  | lit c =>
    cases s with
    | nil => simp [matchT] at hm
    | cons x xs =>
      by_cases hx : lowEq x c = true
      · exact ⟨1, g, _, by simpa [matchT, hx] using hm⟩
      · rw [matchT_lit_ne x c rest xs g cap (by simpa using hx)] at hm
        exact absurd rfl hm
  | cls p =>
    cases s with
    | nil => simp [matchT] at hm
    | cons x xs =>
      by_cases hx : p.mem x = true
      · exact ⟨1, g, _, by simpa [matchT, hx] using hm⟩
      · simp [matchT, hx] at hm
  | star p =>
    have h2 : firstSomeN
        (fun k => matchT rest (s.drop k) g (if g then cap ++ s.take k else cap))
        (desc0 (takeRun p s)) ≠ none := by simpa [matchT] using hm
    obtain ⟨k, _, hf⟩ := firstSomeN_ne_none _ _ h2
    exact ⟨k, g, _, hf⟩
  | plus p =>
    by_cases h0 : (takeRun p s == 0) = true
    · simp [matchT, h0] at hm
    · have h2 : firstSomeN
          (fun k => matchT rest (s.drop k) g (if g then cap ++ s.take k else cap))
          (descFrom1 (takeRun p s)) ≠ none := by
        simpa [matchT, h0] using hm
      obtain ⟨k, _, hf⟩ := firstSomeN_ne_none _ _ h2
      exact ⟨k, g, _, hf⟩
  | optc c =>
    cases s with
    | nil =>
      refine ⟨0, g, cap, ?_⟩
      simpa [matchT] using hm
    | cons x xs =>
      by_cases hx : lowEq x c = true
      · cases hfst : matchT rest xs g (if g then cap ++ [x] else cap) with
        | some v => exact ⟨1, g, if g then cap ++ [x] else cap, by simp [hfst]⟩
        | none =>
          refine ⟨0, g, cap, ?_⟩
          simpa [matchT, hx, hfst] using hm
      · refine ⟨0, g, cap, ?_⟩
        simpa [matchT, hx] using hm
  | gopen => exact ⟨0, true, cap, by simpa [matchT] using hm⟩
  | gclose => exact ⟨0, false, cap, by simpa [matchT] using hm⟩

/-- A pattern containing an adjacent literal pair can only match text
containing that pair. -/
theorem matchT_pair (a b : Char) : ∀ (toks : List Tok) (s : List Char) (g : Bool)
    (cap : List Char), hasAdjPair a b toks = true → matchT toks s g cap ≠ none →
    hasPairS a b s = true := by
  intro toks
  induction toks with
  | nil => intro s g cap hadj _; simp [hasAdjPair] at hadj
  | cons t rest ih =>
    intro s g cap hadj hm
    have h' := hadj
    simp only [hasAdjPair, Bool.or_eq_true, Bool.and_eq_true, beq_iff_eq] at h'
    rcases h' with ⟨hta', hhb'⟩ | hrest
    · subst hta'
      cases rest with
      | nil => simp at hhb'
      | cons t2 rest2 =>
        have ht2 : t2 = Tok.lit b := by simpa using hhb'
        subst ht2
        cases s with
        | nil => simp [matchT] at hm
        | cons x xs =>
          by_cases hx : lowEq x a = true
          · have hm2 : matchT (Tok.lit b :: rest2) xs g
                (if g then cap ++ [x] else cap) ≠ none := by
              simpa [matchT, hx] using hm
            cases xs with
            | nil => simp [matchT] at hm2
            | cons y ys =>
              by_cases hy : lowEq y b = true
              · simp [hasPairS, hx, hy]
              · rw [matchT_lit_ne y b rest2 ys _ _ (by simpa using hy)] at hm2
                exact absurd rfl hm2
          · rw [matchT_lit_ne x a _ xs g cap (by simpa using hx)] at hm
            exact absurd rfl hm
    · obtain ⟨k, g', cap', hm2⟩ := matchT_tail_suffix t rest s g cap hm
      exact hasPairS_drop_mono a b k s (ih (s.drop k) g' cap' hrest hm2)

/-- Search fails everywhere for a pattern whose required literal pair is
absent from the text. -/
theorem research_none_of_no_pair (a b : Char) (toks : List Tok) (s : List Char)
    (hadj : hasAdjPair a b toks = true) (hs : hasPairS a b s = false) :
    research toks s = none := by
  induction s with
  | nil =>
    cases hm : matchT toks [] false [] with
    | none => simpa [research] using hm
    | some r =>
      have := matchT_pair a b toks [] false [] hadj (by simp [hm])
      simp [hasPairS] at this
  | cons x xs ih =>
    have h1 : matchT toks (x :: xs) false [] = none := by
      cases hm : matchT toks (x :: xs) false [] with
      | none => rfl
      | some r =>
        have := matchT_pair a b toks (x :: xs) false [] hadj (by simp [hm])
        rw [this] at hs
        exact absurd hs (by simp)
    have hs' : hasPairS a b xs = false := by
      cases h2 : hasPairS a b xs with
      | false => rfl
      | true =>
        rw [hasPairS_cons_mono a b x xs h2] at hs
        exact absurd hs (by simp)
    rw [research_cons, h1]
    exact ih hs'

/-- No pair can start in text none of whose characters matches the first
component. -/
theorem hasPairS_no_fst (a b : Char) : ∀ (s : List Char),
    (∀ x ∈ s, lowEq x a = false) → hasPairS a b s = false := by
  intro s
  induction s with
  | nil => intro _; rfl
  | cons x xs ih =>
    intro h
    have hx : lowEq x a = false := h x (by simp)
    have ih' := ih (fun y hy => h y (by simp [hy]))
    cases xs with
    | nil => rfl
    | cons y ys => simp [hasPairS, hx, ih']

/-- Absence of a pair in a concatenation whose left part lacks the pair,
whose left part does not end in the first component, and none of whose right
part's characters matches the first component. -/
theorem hasPairS_append_false (a b : Char) : ∀ (p s : List Char),
    hasPairS a b p = false →
    (∀ x, p.getLast? = some x → lowEq x a = false) →
    (∀ x ∈ s, lowEq x a = false) →
    hasPairS a b (p ++ s) = false := by
  intro p
  induction p with
  | nil => intro s _ _ h3; exact hasPairS_no_fst a b s h3
  | cons c cs ih =>
    intro s h1 h2 h3
    cases cs with
    | nil =>
      have hc : lowEq c a = false := h2 c (by simp)
      cases s with
      | nil => rfl
      | cons y ys =>
        have hrest : hasPairS a b (y :: ys) = false := hasPairS_no_fst a b _ h3
        simp [hasPairS, hc, hrest]
    | cons d ds =>
      have h1' : hasPairS a b (d :: ds) = false := by
        cases hh : hasPairS a b (d :: ds) with
        | false => rfl
        | true =>
          rw [show hasPairS a b (c :: d :: ds) =
            ((lowEq c a && lowEq d b) || hasPairS a b (d :: ds)) from rfl, hh] at h1
          simpa using h1
      have hcd : (lowEq c a && lowEq d b) = false := by
        rw [show hasPairS a b (c :: d :: ds) =
          ((lowEq c a && lowEq d b) || hasPairS a b (d :: ds)) from rfl] at h1
        rcases Bool.or_eq_false_iff.mp h1 with ⟨hl, _⟩
        exact hl
      have h2' : ∀ x, (d :: ds).getLast? = some x → lowEq x a = false := by
        intro x hx
        exact h2 x (by rw [List.getLast?_cons_cons]; exact hx)
      have hih := ih s h1' h2' h3
      simp only [List.cons_append] at hih ⊢
      calc hasPairS a b (c :: d :: (ds ++ s))
          = ((lowEq c a && lowEq d b) || hasPairS a b (d :: (ds ++ s))) := rfl
        _ = false := by rw [hcd, hih]; rfl

/-- A word character never lowers to the code of the dot. -/
theorem wordChar_lowEq_dot (c : Char) (h : wordChar c = true) : lowEq c '.' = false := by
  have h' := of_decide_eq_true h
  have h46 : chN '.' = 46 := by decide
  simp only [lowEq, lowN, h46, pyLowN]
  have : pyLowN 46 = 46 := by decide
  simp only [pyLowN] at this
  rw [show (if 65 ≤ 46 ∧ 46 ≤ 90 then 46 + 32 else 46) = 46 from by decide]
  split
  · simp only [beq_eq_false_iff_ne, ne_eq]
    omega
  · simp only [beq_eq_false_iff_ne, ne_eq]
    omega

/-- A whitespace character keeps a whitespace code after lowering. -/
theorem pyIsSpace_lowN (c : Char) (h : pyIsSpace c = true) : wsN (lowN c) = true := by
  have h' := of_decide_eq_true h
  have hlow : lowN c = chN c := by
    simp only [lowN, pyLowN]
    rw [if_neg (by omega)]
  rw [hlow]
  simpa [wsN] using h'

/-- The whitespace split of all-whitespace text is empty. -/
theorem splitWS_all_ws (l : List Nat) (h : ∀ n ∈ l, wsN n = true) : splitWS l = [] := by
  unfold splitWS
  induction l with
  | nil => rfl
  | cons n rest ih =>
    have hn : wsN n = true := h n (by simp)
    have := ih (fun m hm => h m (by simp [hm]))
    simpa [splitWSAux, hn] using this

/-- A query with only whitespace characters yields no query terms. -/
theorem queryTerms_ws (q : String) (h : ∀ c ∈ q.toList, pyIsSpace c = true) :
    queryTerms q = [] := by
  unfold queryTerms lowCodes
  apply splitWS_all_ws
  intro n hn
  obtain ⟨c, hc, rfl⟩ := List.mem_map.mp hn
  exact pyIsSpace_lowN c (h c hc)

/-- Character list of a concatenation of strings. -/
theorem toList_append (s t : String) : (s ++ t).toList = s.toList ++ t.toList := by
  have := String.data_append s t
  simpa [String.toList] using this

/-- Search for a literal prefix followed by the captured word group succeeds
on skip-prefix ++ literals ++ slug, capturing the slug, when no character of
the skip prefix can begin the literals. -/
theorem research_lits_grp (skip pre slugL : List Char) (c : Char) (rest : List Tok)
    (heq : List.map Tok.lit pre ++ grpWord = Tok.lit c :: rest)
    (hskip : ∀ x ∈ skip, lowEq x c = false)
    (h1 : slugL ≠ []) (h2 : ∀ ch ∈ slugL, wordChar ch = true) :
    research (List.map Tok.lit pre ++ grpWord) (skip ++ (pre ++ slugL)) = some slugL := by
  rw [heq, research_skip_all c rest skip _ hskip, ← heq]
  exact research_head_some _ _ _
    (by rw [matchT_lits_append]; exact matchT_grpWord _ h1 h2)

/-- A pattern with the pair yields nothing on text without the pair. -/
theorem runPat_none_of_pair (a b : Char) (toks : List Tok) (s : List Char)
    (hadj : hasAdjPair a b toks = true) (hs : hasPairS a b s = false) :
    runPat toks s = none := by
  unfold runPat
  rw [research_none_of_no_pair a b toks s hadj hs]
  rfl

/-- Unfolding of the backend scan of the URL registry. -/
theorem scanBackendsU_cons (ats : String) (ps : List (List Tok))
    (rest : List (String × List (List Tok))) (s : List Char) :
    scanBackendsU ((ats, ps) :: rest) s =
      (scanPatsU ats ps s).orElse (fun _ => scanBackendsU rest s) := rfl

/-- Unfolding of the pattern scan of the URL registry. -/
theorem scanPatsU_cons (ats : String) (p : List Tok) (ps : List (List Tok)) (s : List Char) :
    scanPatsU ats (p :: ps) s =
      (match runPat p s with
       | some ext => some (ats, ext)
       | none => scanPatsU ats ps s) := rfl

/-- The greenhouse canonical URL classifies to greenhouse with its slug. -/
theorem detect_gh (slug : String) (h1 : slug ≠ "") (h2 : ∀ c ∈ slug.toList, wordChar c = true) :
    detect_from_url ("https://boards.greenhouse.io/" ++ slug) = some ("greenhouse", some slug) := by
  have hres : research ghU1 ("https://boards.greenhouse.io/" ++ slug).toList = some slug.toList := by
    rw [toList_append]
    rw [show "https://boards.greenhouse.io/".toList
        = "https://".toList ++ "boards.greenhouse.io/".toList from by decide]
    rw [List.append_assoc]
    exact research_lits_grp "https://".toList "boards.greenhouse.io/".toList slug.toList 'b'
      (List.map Tok.lit "oards.greenhouse.io/".toList ++ grpWord) (by decide) (by decide)
      (toList_ne_nil _ h1) h2
  have hp1 : runPat ghU1 ("https://boards.greenhouse.io/" ++ slug).toList = some (some slug) := by
    unfold runPat
    rw [hres]
    rfl
  show scanBackendsU ATS_URL_PATTERNS ("https://boards.greenhouse.io/" ++ slug).toList
    = some ("greenhouse", some slug)
  rw [show ATS_URL_PATTERNS = ("greenhouse", [ghU1, ghU2, ghU3]) ::
    [("lever", [levU]), ("ashby", [ashU]), ("workday", [wdU1, wdU2])] from rfl]
  rw [scanBackendsU_cons, scanPatsU_cons, hp1]
  rfl

/-- Pair absence over a concrete prefix ending in a slash followed by word
characters. -/
theorem no_pair_prefix_slug (b : Char) (p : List Char) (slug : String)
    (hpre : hasPairS '.' b p = false)
    (hlast : p.getLast? = some '/')
    (h2 : ∀ c ∈ slug.toList, wordChar c = true) :
    hasPairS '.' b (p ++ slug.toList) = false := by
  apply hasPairS_append_false '.' b p slug.toList hpre
  · intro x hx
    rw [hlast] at hx
    injection hx with hx'
    subst hx'
    decide
  · exact fun x hx => wordChar_lowEq_dot x (h2 x hx)

/-- The lever canonical URL classifies to lever with its slug: the three
greenhouse patterns fail for want of their dot-g literal pair, and the lever
pattern matches. -/
theorem detect_lever (slug : String) (h1 : slug ≠ "")
    (h2 : ∀ c ∈ slug.toList, wordChar c = true) :
    detect_from_url ("https://jobs.lever.co/" ++ slug) = some ("lever", some slug) := by
  have hnog : hasPairS '.' 'g' ("https://jobs.lever.co/" ++ slug).toList = false := by
    rw [toList_append]
    exact no_pair_prefix_slug 'g' _ slug (by decide) (by decide) h2
  have hg1 : runPat ghU1 ("https://jobs.lever.co/" ++ slug).toList = none :=
    runPat_none_of_pair '.' 'g' _ _ (by decide) hnog
  have hg2 : runPat ghU2 ("https://jobs.lever.co/" ++ slug).toList = none :=
    runPat_none_of_pair '.' 'g' _ _ (by decide) hnog
  have hg3 : runPat ghU3 ("https://jobs.lever.co/" ++ slug).toList = none :=
    runPat_none_of_pair '.' 'g' _ _ (by decide) hnog
  have hres : research levU ("https://jobs.lever.co/" ++ slug).toList = some slug.toList := by
    rw [toList_append]
    rw [show "https://jobs.lever.co/".toList
        = "https://".toList ++ "jobs.lever.co/".toList from by decide]
    rw [List.append_assoc]
    exact research_lits_grp "https://".toList "jobs.lever.co/".toList slug.toList 'j'
      (List.map Tok.lit "obs.lever.co/".toList ++ grpWord) (by decide) (by decide)
      (toList_ne_nil _ h1) h2
  have hlev : runPat levU ("https://jobs.lever.co/" ++ slug).toList = some (some slug) := by
    unfold runPat
    rw [hres]
    rfl
  show scanBackendsU ATS_URL_PATTERNS ("https://jobs.lever.co/" ++ slug).toList
    = some ("lever", some slug)
  rw [show ATS_URL_PATTERNS = ("greenhouse", [ghU1, ghU2, ghU3]) ::
    [("lever", [levU]), ("ashby", [ashU]), ("workday", [wdU1, wdU2])] from rfl]
  rw [scanBackendsU_cons, scanPatsU_cons, hg1]
  rw [scanPatsU_cons, hg2]
  rw [scanPatsU_cons, hg3]
  rw [show scanPatsU "greenhouse" ([] : List (List Tok))
      ("https://jobs.lever.co/" ++ slug).toList = none from rfl]
  rw [show (none : Option (String × Option String)).orElse
      (fun _ => scanBackendsU [("lever", [levU]), ("ashby", [ashU]), ("workday", [wdU1, wdU2])]
        ("https://jobs.lever.co/" ++ slug).toList) =
      scanBackendsU [("lever", [levU]), ("ashby", [ashU]), ("workday", [wdU1, wdU2])]
        ("https://jobs.lever.co/" ++ slug).toList from rfl]
  rw [scanBackendsU_cons, scanPatsU_cons, hlev]
  rfl

/-- The ashby canonical URL classifies to ashby with its slug: the greenhouse
and lever patterns fail for want of their literal pairs, and the ashby
pattern matches. -/
theorem detect_ashby (slug : String) (h1 : slug ≠ "")
    (h2 : ∀ c ∈ slug.toList, wordChar c = true) :
    detect_from_url ("https://jobs.ashbyhq.com/" ++ slug) = some ("ashby", some slug) := by
  have hnog : hasPairS '.' 'g' ("https://jobs.ashbyhq.com/" ++ slug).toList = false := by
    rw [toList_append]
    exact no_pair_prefix_slug 'g' _ slug (by decide) (by decide) h2
  have hnol : hasPairS '.' 'l' ("https://jobs.ashbyhq.com/" ++ slug).toList = false := by
    rw [toList_append]
    exact no_pair_prefix_slug 'l' _ slug (by decide) (by decide) h2
  have hg1 : runPat ghU1 ("https://jobs.ashbyhq.com/" ++ slug).toList = none :=
    runPat_none_of_pair '.' 'g' _ _ (by decide) hnog
  have hg2 : runPat ghU2 ("https://jobs.ashbyhq.com/" ++ slug).toList = none :=
    runPat_none_of_pair '.' 'g' _ _ (by decide) hnog
  have hg3 : runPat ghU3 ("https://jobs.ashbyhq.com/" ++ slug).toList = none :=
    runPat_none_of_pair '.' 'g' _ _ (by decide) hnog
  have hlv : runPat levU ("https://jobs.ashbyhq.com/" ++ slug).toList = none :=
    runPat_none_of_pair '.' 'l' _ _ (by decide) hnol
  have hres : research ashU ("https://jobs.ashbyhq.com/" ++ slug).toList = some slug.toList := by
    rw [toList_append]
    rw [show "https://jobs.ashbyhq.com/".toList
        = "https://".toList ++ "jobs.ashbyhq.com/".toList from by decide]
    rw [List.append_assoc]
    exact research_lits_grp "https://".toList "jobs.ashbyhq.com/".toList slug.toList 'j'
      (List.map Tok.lit "obs.ashbyhq.com/".toList ++ grpWord) (by decide) (by decide)
      (toList_ne_nil _ h1) h2
  have hash : runPat ashU ("https://jobs.ashbyhq.com/" ++ slug).toList = some (some slug) := by
    unfold runPat
    rw [hres]
    rfl
  show scanBackendsU ATS_URL_PATTERNS ("https://jobs.ashbyhq.com/" ++ slug).toList
    = some ("ashby", some slug)
  rw [show ATS_URL_PATTERNS = ("greenhouse", [ghU1, ghU2, ghU3]) ::
    [("lever", [levU]), ("ashby", [ashU]), ("workday", [wdU1, wdU2])] from rfl]
  rw [scanBackendsU_cons, scanPatsU_cons, hg1]
  rw [scanPatsU_cons, hg2]
  rw [scanPatsU_cons, hg3]
  rw [show scanPatsU "greenhouse" ([] : List (List Tok))
      ("https://jobs.ashbyhq.com/" ++ slug).toList = none from rfl]
  rw [show (none : Option (String × Option String)).orElse
      (fun _ => scanBackendsU [("lever", [levU]), ("ashby", [ashU]), ("workday", [wdU1, wdU2])]
        ("https://jobs.ashbyhq.com/" ++ slug).toList) =
      scanBackendsU [("lever", [levU]), ("ashby", [ashU]), ("workday", [wdU1, wdU2])]
        ("https://jobs.ashbyhq.com/" ++ slug).toList from rfl]
  rw [scanBackendsU_cons, scanPatsU_cons, hlv]
  rw [show scanPatsU "lever" ([] : List (List Tok))
      ("https://jobs.ashbyhq.com/" ++ slug).toList = none from rfl]
  rw [show (none : Option (String × Option String)).orElse
      (fun _ => scanBackendsU [("ashby", [ashU]), ("workday", [wdU1, wdU2])]
        ("https://jobs.ashbyhq.com/" ++ slug).toList) =
      scanBackendsU [("ashby", [ashU]), ("workday", [wdU1, wdU2])]
        ("https://jobs.ashbyhq.com/" ++ slug).toList from rfl]
  rw [scanBackendsU_cons, scanPatsU_cons, hash]
  rfl

/-- C9: round-trip of the URL registry: for every backend among greenhouse,
lever and ashby and every non-empty slug of word characters, classifying the
canonical URL built from (backend, slug) returns exactly that backend and
slug. -/
theorem c9_url_roundtrip (slug : String) (h1 : slug ≠ "")
    (h2 : ∀ c ∈ slug.toList, wordChar c = true) :
    detect_from_url (build_direct_url "greenhouse" slug) = some ("greenhouse", some slug) ∧
    detect_from_url (build_direct_url "lever" slug) = some ("lever", some slug) ∧
    detect_from_url (build_direct_url "ashby" slug) = some ("ashby", some slug) := by
  refine ⟨?_, ?_, ?_⟩
  · rw [show build_direct_url "greenhouse" slug = "https://boards.greenhouse.io/" ++ slug from rfl]
    exact detect_gh slug h1 h2
  · rw [show build_direct_url "lever" slug = "https://jobs.lever.co/" ++ slug from rfl]
    exact detect_lever slug h1 h2
  · rw [show build_direct_url "ashby" slug = "https://jobs.ashbyhq.com/" ++ slug from rfl]
    exact detect_ashby slug h1 h2

/-- Witness for C9 at the concrete slug acme. -/
theorem c9_url_roundtrip_witness :
    ("acme" : String) ≠ "" ∧ (∀ c ∈ ("acme" : String).toList, wordChar c = true) ∧
    detect_from_url (build_direct_url "greenhouse" "acme") = some ("greenhouse", some "acme") ∧
    detect_from_url (build_direct_url "lever" "acme") = some ("lever", some "acme") ∧
    detect_from_url (build_direct_url "ashby" "acme") = some ("ashby", some "acme") := by
  have h := c9_url_roundtrip "acme" (by decide) (by decide)
  exact ⟨by decide, by decide, h.1, h.2.1, h.2.2⟩

/-- The flattened scan distributes over concatenation. -/
theorem detectFlat_append (L1 L2 : List (String × List Tok × String)) (s : List Char) :
    detectFlat (L1 ++ L2) s = (detectFlat L1 s).orElse (fun _ => detectFlat L2 s) := by
  induction L1 with
  | nil => rfl
  | cons e rest ih =>
    obtain ⟨ats, p, k⟩ := e
    simp only [List.cons_append, detectFlat]
    cases runPat p s with
    | some ext => rfl
    | none => exact ih

/-- The per-backend scan is the flattened scan of its tagged patterns. -/
theorem scanPats_eq_flat (ats : String) (ps : List (List Tok × String)) (s : List Char) :
    scanPats ats ps s = detectFlat (ps.map (fun pk => (ats, pk.1, pk.2))) s := by
  induction ps with
  | nil => rfl
  | cons pk rest ih =>
    obtain ⟨p, k⟩ := pk
    simp only [List.map_cons, scanPats, detectFlat]
    cases runPat p s with
    | some ext => rfl
    | none => exact ih

/-- The nested registry scan equals the flattened scan. -/
theorem scanBackends_eq_flat (L : List (String × List (List Tok × String))) (s : List Char) :
    scanBackends L s =
      detectFlat (L.flatMap (fun e => e.2.map (fun pk => (e.1, pk.1, pk.2)))) s := by
  induction L with
  | nil => rfl
  | cons e rest ih =>
    obtain ⟨ats, ps⟩ := e
    simp only [List.flatMap_cons, scanBackends, detectFlat_append]
    rw [← scanPats_eq_flat, ← ih]

/-- detect_from_html is the first-match scan of the flattened registry. -/
theorem detect_from_html_eq_flat (h : String) :
    detect_from_html h = detectFlat HTML_FLAT h.toList := by
  unfold detect_from_html HTML_FLAT
  exact scanBackends_eq_flat HTML_INDICATORS h.toList

/-- First-match property of the flattened scan: the entry at an index whose
pattern matches, all earlier patterns failing, determines the result. -/
theorem detectFlat_first : ∀ (L : List (String × List Tok × String)) (i : Nat)
    (ats : String) (p : List Tok) (k : String) (s : List Char),
    L[i]? = some (ats, p, k) →
    ((L.take i).all (fun e => (runPat e.2.1 s).isNone)) = true →
    runPat p s ≠ none →
    ∃ ext, runPat p s = some ext ∧ detectFlat L s = some (ats, ext) := by
  intro L
  induction L with
  | nil => intro i ats p k s hget _ _; simp at hget
  | cons e rest ih =>
    intro i ats p k s hget htake hm
    obtain ⟨a0, p0, k0⟩ := e
    cases i with
    | zero =>
      simp only [List.getElem?_cons_zero, Option.some.injEq, Prod.mk.injEq] at hget
      obtain ⟨h1, h2, h3⟩ := hget
      subst h1
      subst h2
      cases hr : runPat p0 s with
      | none => exact absurd hr hm
      | some ext =>
        refine ⟨ext, rfl, ?_⟩
        simp only [detectFlat, hr]
    | succ i =>
      have h0 : (runPat p0 s).isNone = true := by
        simp only [List.take_succ_cons, List.all_cons, Bool.and_eq_true] at htake
        exact htake.1
      have h0' : runPat p0 s = none := by
        cases hr : runPat p0 s with
        | none => rfl
        | some v => rw [hr] at h0; simp at h0
      have htake' : ((rest.take i).all (fun e => (runPat e.2.1 s).isNone)) = true := by
        simp only [List.take_succ_cons, List.all_cons, Bool.and_eq_true] at htake
        exact htake.2
      have hget' : rest[i]? = some (ats, p, k) := by simpa using hget
      obtain ⟨ext, hext, hflat⟩ := ih i ats p k s hget' htake' hm
      refine ⟨ext, hext, ?_⟩
      simp only [detectFlat, h0', hflat]

/-- C3 counterexample: on markup carrying both an embed-widget indicator
(extracting acme) and an iframe indicator, classifyMarkup returns the iframe
extraction, not the embed one, refuting the claimed priority order that puts
the embed indicator first. -/
theorem c3_counterexample :
    runPat ghEmb c3Markup.toList ≠ none ∧
    detect_from_html c3Markup = some ("greenhouse", some "https://boards.greenhouse.io/emb") ∧
    detect_from_html c3Markup ≠ some ("greenhouse", some "acme") := by
  refine ⟨by decide, by decide, by decide⟩

/-- C3 amended: classifyMarkup tests indicators in the registry's code order
(for greenhouse: iframe, script, embed, the two bare links, config; then the
later backends); when markup matches several indicators, the earliest in that
order determines the returned backend and extracted value. -/
theorem c3_markup_priority (h : String) (i : Nat) (ats : String) (p : List Tok) (kind : String)
    (hget : HTML_FLAT[i]? = some (ats, p, kind))
    (hearlier : ((HTML_FLAT.take i).all (fun e => (runPat e.2.1 h.toList).isNone)) = true)
    (hm : runPat p h.toList ≠ none) :
    ∃ ext, runPat p h.toList = some ext ∧ detect_from_html h = some (ats, ext) := by
  obtain ⟨ext, h1, h2⟩ := detectFlat_first HTML_FLAT i ats p kind h.toList hget hearlier hm
  exact ⟨ext, h1, by rw [detect_from_html_eq_flat]; exact h2⟩

/-- Witness for the amended C3 at the embed indicator (index 2 of the
flattened registry) on markup matching no earlier indicator. -/
theorem c3_markup_priority_witness :
    ∃ ext, runPat ghEmb c3EmbedOnly.toList = some ext ∧
      detect_from_html c3EmbedOnly = some ("greenhouse", ext) :=
  c3_markup_priority c3EmbedOnly 2 "greenhouse" ghEmb "embed" (by decide) (by decide) (by decide)

/-- The workday candidate loop only returns a URL from its candidate list,
always with the sentinel count, and only off a 200 response containing the
marker. -/
theorem wdLoop_spec (fetch : String → Except Unit (Nat × String)) :
    ∀ (urls : List String) (url : String) (c : Int),
    wdLoop fetch urls = some (url, c) →
    c = -1 ∧ url ∈ urls ∧
      ∃ st text, fetch url = .ok (st, text) ∧ st = 200 ∧
        isSub (lowCodes "workday") (lowCodes text) = true := by
  intro urls
  induction urls with
  | nil => intro url c h; simp [wdLoop] at h
  | cons u rest ih =>
    intro url c h
    cases hf : fetch u with
    | error e =>
      rw [wdLoop, hf] at h
      obtain ⟨hc, hmem, hrest⟩ := ih url c h
      exact ⟨hc, by simp [hmem], hrest⟩
    | ok pr =>
      obtain ⟨st, text⟩ := pr
      rw [wdLoop, hf] at h
      have h' : (if (st == 200 && isSub (lowCodes "workday") (lowCodes text)) = true
          then some (u, (-1 : Int)) else wdLoop fetch rest) = some (url, c) := h
      by_cases hcond : (st == 200 && isSub (lowCodes "workday") (lowCodes text)) = true
      · rw [if_pos hcond] at h'
        simp only [Option.some.injEq, Prod.mk.injEq] at h'
        obtain ⟨hu, hc⟩ := h'
        subst hu
        have hcond' : (st == 200) = true ∧
            isSub (lowCodes "workday") (lowCodes text) = true := by simpa using hcond
        obtain ⟨hst, hsub⟩ := hcond'
        refine ⟨hc.symm, by simp, st, text, hf, by simpa using hst, hsub⟩
      · rw [if_neg hcond] at h'
        obtain ⟨hc, hmem, hrest⟩ := ih url c h'
        exact ⟨hc, by simp [hmem], hrest⟩

/-- C5: workday-style verification differs from the REST backends: the REST
verifier has no workday entry and reports (False, 0); check_workday instead
fetches the candidate pages and accepts one only off an HTTP 200 body
containing the workday marker, reporting the sentinel count -1 (meaning
found, postings not counted). -/
theorem c5_workday_sentinel :
    (∀ (env : ResolverEnv) (slug : String), verify_ats env "workday" slug = (false, 0)) ∧
    (∀ (fetch : String → Except Unit (Nat × String)) (career_url company_name url : String)
      (c : Int), check_workday fetch career_url company_name = some (url, c) →
      c = -1 ∧ url ∈ workday_urls company_name ∧
        ∃ st text, fetch url = .ok (st, text) ∧ st = 200 ∧
          isSub (lowCodes "workday") (lowCodes text) = true) := by
  constructor
  · intro env slug
    rfl
  · intro fetch career_url company_name url c h
    exact wdLoop_spec fetch (workday_urls company_name) url c h

/-- Witness for C5 on a fetch oracle resolving the first acme candidate with
a marker-bearing body. -/
theorem c5_workday_sentinel_witness :
    verify_ats noNetEnv "workday" "acme" = (false, 0) ∧
    ((-1 : Int) = -1 ∧
      "https://acme.wd5.myworkdayjobs.com/acme" ∈ workday_urls "Acme" ∧
      ∃ st text, wdFetch "https://acme.wd5.myworkdayjobs.com/acme" = .ok (st, text) ∧
        st = 200 ∧ isSub (lowCodes "workday") (lowCodes text) = true) := by
  refine ⟨c5_workday_sentinel.1 noNetEnv "acme", ?_⟩
  exact c5_workday_sentinel.2 wdFetch "https://acme.example.com" "Acme"
    "https://acme.wd5.myworkdayjobs.com/acme" (-1) (by decide)

/-- C4: for each of the three REST-style backends the verifier is a total
function of the response: a network failure, a non-200 status, or an
unparsable 200 body yields (False, 0), and a 200 response structurally valid
for the backend with an empty posting list yields (True, 0) - an empty board
is still ok. -/
theorem c4_verify_total (env : ResolverEnv) (slug ats : String)
    (hats : ats ∈ (["greenhouse", "lever", "ashby"] : List String)) :
    (env.verifyResp ats slug = .error () → verify_ats env ats slug = (false, 0)) ∧
    (∀ st body, env.verifyResp ats slug = .ok (st, body) → st ≠ 200 →
      verify_ats env ats slug = (false, 0)) ∧
    (env.verifyResp ats slug = .ok (200, none) → verify_ats env ats slug = (false, 0)) ∧
    (env.verifyResp ats slug = .ok (200, some (emptyBoard ats)) →
      verify_ats env ats slug = (true, 0)) := by
  simp only [List.mem_cons, List.not_mem_nil, or_false] at hats
  rcases hats with rfl | rfl | rfl
  · refine ⟨?_, ?_, ?_, ?_⟩
    · intro h
      show verify_greenhouse (env.verifyResp "greenhouse" slug) = (false, 0)
      rw [h]
      rfl
    · intro st body h hne
      show verify_greenhouse (env.verifyResp "greenhouse" slug) = (false, 0)
      rw [h]
      have hb : (st == 200) = false := by simpa using hne
      simp [verify_greenhouse, hb]
    · intro h
      show verify_greenhouse (env.verifyResp "greenhouse" slug) = (false, 0)
      rw [h]
      rfl
    · intro h
      show verify_greenhouse (env.verifyResp "greenhouse" slug) = (true, 0)
      rw [h]
      rfl
  · refine ⟨?_, ?_, ?_, ?_⟩
    · intro h
      show verify_lever (env.verifyResp "lever" slug) = (false, 0)
      rw [h]
      rfl
    · intro st body h hne
      show verify_lever (env.verifyResp "lever" slug) = (false, 0)
      rw [h]
      have hb : (st == 200) = false := by simpa using hne
      simp [verify_lever, hb]
    · intro h
      show verify_lever (env.verifyResp "lever" slug) = (false, 0)
      rw [h]
      rfl
    · intro h
      show verify_lever (env.verifyResp "lever" slug) = (true, 0)
      rw [h]
      rfl
  · refine ⟨?_, ?_, ?_, ?_⟩
    · intro h
      show verify_ashby (env.verifyResp "ashby" slug) = (false, 0)
      rw [h]
      rfl
    · intro st body h hne
      show verify_ashby (env.verifyResp "ashby" slug) = (false, 0)
      rw [h]
      have hb : (st == 200) = false := by simpa using hne
      simp [verify_ashby, hb]
    · intro h
      show verify_ashby (env.verifyResp "ashby" slug) = (false, 0)
      rw [h]
      rfl
    · intro h
      show verify_ashby (env.verifyResp "ashby" slug) = (true, 0)
      rw [h]
      rfl

/-- Witness for C4: on the environment answering every verification request
with HTTP 200 and an empty board, each backend verifies as ok with count
zero. -/
theorem c4_verify_total_witness :
    verify_ats emptyBoardEnv "greenhouse" "acme" = (true, 0) ∧
    verify_ats emptyBoardEnv "lever" "acme" = (true, 0) ∧
    verify_ats emptyBoardEnv "ashby" "acme" = (true, 0) :=
  ⟨(c4_verify_total emptyBoardEnv "acme" "greenhouse" (by decide)).2.2.2 rfl,
   (c4_verify_total emptyBoardEnv "acme" "lever" (by decide)).2.2.2 rfl,
   (c4_verify_total emptyBoardEnv "acme" "ashby" (by decide)).2.2.2 rfl⟩

/-- An accepted guess of the inner stage-3 loop comes from one of its slugs,
verified with the accepted positive count. -/
theorem tryVars_spec (env : ResolverEnv) (ats : String) :
    ∀ (vars : List String) (info : ATSInfo), tryVars env ats vars = some info →
      ∃ slug ∈ vars, verify_ats env ats slug = (true, info.job_count) ∧
        info = ⟨ats, build_direct_url ats slug, info.job_count, true⟩ ∧
        0 < info.job_count := by
  intro vars
  induction vars with
  | nil => intro info h; simp [tryVars] at h
  | cons slug rest ih =>
    intro info h
    simp only [tryVars] at h
    split at h
    · rename_i hcond
      have h' : info = ⟨ats, build_direct_url ats slug, (verify_ats env ats slug).2, true⟩ := by
        injection h with h''
        exact h''.symm
      subst h'
      refine ⟨slug, by simp, ?_, rfl, hcond.2⟩
      rw [← hcond.1]
    · obtain ⟨s, hs, hrest⟩ := ih info h
      exact ⟨s, by simp [hs], hrest⟩

/-- An accepted candidate of stage 3 comes from one of the three REST-style
backends and one of the slug variations, verified with a positive count. -/
theorem step3loop_spec (env : ResolverEnv) (vars : List String) (info : ATSInfo)
    (h : step3loop env vars = some info) :
    ∃ ats ∈ (["greenhouse", "lever", "ashby"] : List String), ∃ slug ∈ vars,
      verify_ats env ats slug = (true, info.job_count) ∧
      info = ⟨ats, build_direct_url ats slug, info.job_count, true⟩ ∧
      0 < info.job_count := by
  unfold step3loop at h
  cases h1 : tryVars env "greenhouse" vars with
  | some i =>
    rw [h1] at h
    have h' : some i = some info := h
    injection h' with h''
    subst h''
    obtain ⟨s, hs, hrest⟩ := tryVars_spec env "greenhouse" vars i h1
    exact ⟨"greenhouse", by simp, s, hs, hrest⟩
  | none =>
    rw [h1] at h
    cases h2 : tryVars env "lever" vars with
    | some i =>
      rw [h2] at h
      have h' : some i = some info := h
      injection h' with h''
      subst h''
      obtain ⟨s, hs, hrest⟩ := tryVars_spec env "lever" vars i h2
      exact ⟨"lever", by simp, s, hs, hrest⟩
    | none =>
      rw [h2] at h
      have h' : tryVars env "ashby" vars = some info := h
      obtain ⟨s, hs, hrest⟩ := tryVars_spec env "ashby" vars info h'
      exact ⟨"ashby", by simp, s, hs, hrest⟩

/-- C6: the name-derived-guess stage accepts a candidate only when its
verification succeeds with a strictly positive posting count; in particular a
guessed slug verifying as (True, 0) is never the accepted candidate. -/
theorem c6_guess_needs_postings (env : ResolverEnv) (name : String) (vars : List String)
    (hv : generate_slug_variations name = .ok vars) (info : ATSInfo)
    (h : step3loop env vars = some info) :
    info.verified = true ∧ 0 < info.job_count ∧
      ∃ ats ∈ (["greenhouse", "lever", "ashby"] : List String), ∃ slug ∈ vars,
        verify_ats env ats slug = (true, info.job_count) := by
  obtain ⟨ats, hats, slug, hslug, hver, heq, hpos⟩ := step3loop_spec env vars info h
  exact ⟨by rw [heq], hpos, ats, hats, slug, hslug, hver⟩

/-- Witness for C6: an environment where the greenhouse guess resolves with
an empty board (True, 0) and the lever guess carries three postings; the
accepted candidate is the lever one with count 3, not the empty greenhouse
board. -/
theorem c6_guess_needs_postings_witness :
    verify_ats guessEnv "greenhouse" "acme" = (true, 0) ∧
    step3loop guessEnv ["acme"] = some ⟨"lever", "https://jobs.lever.co/acme", 3, true⟩ ∧
    ((⟨"lever", "https://jobs.lever.co/acme", 3, true⟩ : ATSInfo).verified = true ∧
      0 < (⟨"lever", "https://jobs.lever.co/acme", 3, true⟩ : ATSInfo).job_count ∧
      ∃ ats ∈ (["greenhouse", "lever", "ashby"] : List String), ∃ slug ∈ ["acme"],
        verify_ats guessEnv ats slug =
          (true, (⟨"lever", "https://jobs.lever.co/acme", 3, true⟩ : ATSInfo).job_count)) := by
  have h := c6_guess_needs_postings guessEnv "acme" ["acme"] rfl
    ⟨"lever", "https://jobs.lever.co/acme", 3, true⟩ rfl
  exact ⟨rfl, rfl, h⟩

/-- Every endpoint stage 1 returns is verified. -/
theorem stage1_verified (env : ResolverEnv) (cu : String) (info : ATSInfo)
    (h : stage1 env cu = some info) : info.verified = true := by
  unfold stage1 at h
  repeat' split at h
  all_goals first
    | (injection h with h2; rw [← h2])
    | simp at h

/-- Every endpoint stage 2 returns is verified. -/
theorem stage2_verified (env : ResolverEnv) (cu : String) (info : ATSInfo)
    (h : stage2 env cu = some info) : info.verified = true := by
  unfold stage2 at h
  repeat' split at h
  all_goals first
    | (injection h with h2; rw [← h2])
    | simp at h

/-- The slug-variation generator succeeds whenever the lower-cased name with
a space splits into at least one word. -/
theorem gsv_ok (name : String)
    (h : (lowerStr name).toList.contains ' ' = true → pySplitWS (lowerStr name) ≠ []) :
    ∃ vs, generate_slug_variations name = .ok vs := by
  unfold generate_slug_variations
  cases hc : (lowerStr name).toList.contains ' ' with
  | false =>
    simp only [hc]
    exact ⟨_, rfl⟩
  | true =>
    cases hs : pySplitWS (lowerStr name) with
    | nil => exact absurd hs (h hc)
    | cons w ws =>
      simp only [hc, hs]
      exact ⟨_, rfl⟩

/-- C8 counterexample: analyze_company raises (IndexError, modelled as the
Except error) on a company name consisting of a single space, because the
slug-variation generator indexes the first element of an empty split. -/
theorem c8_counterexample :
    analyze_company noNetEnv " " "https://nope.example.com" "custom" = .error () := by
  rfl

/-- C8 amended: for every company name except the degenerate ones that are
all whitespace while containing a space (where the slug-variation stage
raises IndexError), analyze_company never raises, and whenever the result is
unverified it carries exactly the original backend type and career URL with
count 0. -/
theorem c8_resolver_fallback (env : ResolverEnv) (name career_url current_ats : String)
    (h : (lowerStr name).toList.contains ' ' = true → pySplitWS (lowerStr name) ≠ []) :
    ∃ info, analyze_company env name career_url current_ats = .ok info ∧
      (info.verified = false → info = ⟨current_ats, career_url, 0, false⟩) := by
  unfold analyze_company
  cases h1 : stage1 env career_url with
  | some i =>
    refine ⟨i, rfl, fun hv => ?_⟩
    rw [stage1_verified env career_url i h1] at hv
    exact absurd hv (by simp)
  | none =>
    cases h2 : stage2 env career_url with
    | some i =>
      refine ⟨i, rfl, fun hv => ?_⟩
      rw [stage2_verified env career_url i h2] at hv
      exact absurd hv (by simp)
    | none =>
      obtain ⟨vs, hvs⟩ := gsv_ok name h
      simp only [hvs]
      cases h3 : step3loop env vs with
      | some i =>
        refine ⟨i, rfl, fun hv => ?_⟩
        obtain ⟨ats, _, slug, _, _, heq, _⟩ := step3loop_spec env vs i h3
        rw [heq] at hv
        simp at hv
      | none => exact ⟨⟨current_ats, career_url, 0, false⟩, rfl, fun _ => rfl⟩

/-- Witness for the amended C8: with every network request failing and the
name acme, resolution falls through to the original configuration. -/
theorem c8_resolver_fallback_witness :
    ∃ info, analyze_company noNetEnv "acme" "https://nope.example.com" "custom" = .ok info ∧
      (info.verified = false → info = ⟨"custom", "https://nope.example.com", 0, false⟩) :=
  c8_resolver_fallback noNetEnv "acme" "https://nope.example.com" "custom" (by decide)

/-- With no query terms every link fails the query-match filter, so the loop
produces nothing. -/
theorem extractGo_no_terms (company base : String) (filters : JobFilters) :
    ∀ (links : List CrawlLink) (seen : List String),
      extractGo company base filters [] links seen [] = [] := by
  intro links
  induction links with
  | nil => intro seen; rfl
  | cons l rest ih =>
    intro seen
    unfold extractGo
    split
    · exact ih seen
    · split
      · exact ih seen
      · split
        · exact ih _
        · have hm : matches_query l.title [] = false := rfl
          simp only [hm, Bool.not_false, if_true]
          exact ih _

/-- C10: a crawl whose query contains no non-whitespace characters returns
the empty sequence of JobRecords: the query splits into zero terms and the
query-match filter, an OR over the terms, rejects every title instead of
acting as a match-all. -/
theorem c10_blank_query (company base : String) (filters : JobFilters)
    (links : List CrawlLink) (h : ∀ c ∈ filters.query.toList, pyIsSpace c = true) :
    extract_jobs company base filters links = [] := by
  unfold extract_jobs
  rw [queryTerms_ws filters.query h]
  exact extractGo_no_terms company base filters links []

/-- Witness for C10 at the empty query over a link that would otherwise be
accepted. -/
theorem c10_blank_query_witness :
    extract_jobs "Acme" "https://x.co/careers" ⟨"", none, false, none, 30, 10⟩
      [⟨"https://x.co/jobs/1", "Senior Software Engineer", "Remote"⟩] = [] :=
  c10_blank_query "Acme" "https://x.co/careers" ⟨"", none, false, none, 30, 10⟩
    [⟨"https://x.co/jobs/1", "Senior Software Engineer", "Remote"⟩] (by decide)

/-- C1 (evaluation of the code at the failing input): with remote_only set
and no location filter, a link classified at the non-remote location Austin,
TX still yields its JobRecord - the remote-only rejection in _extract_jobs is
nested inside the location-filter branch, so with no location filter nothing
is rejected, contradicting spec scenario E which requires zero JobRecords. -/
theorem c1_remote_only_not_enforced :
    extract_jobs "Acme" "https://example.com/careers"
      ⟨"engineer", none, true, none, 30, 10⟩
      [⟨"https://example.com/jobs/123", "Senior Software Engineer", "Austin, TX"⟩] =
    [⟨"Senior Software Engineer", "Acme", "Austin, TX", "", "https://example.com/jobs/123",
      none, "crawler", false, "senior"⟩] := by
  rfl

/-- A single-link crawl whose link passes the URL, title and query checks
reduces to the filter-application decision. -/
theorem extract_single (company base : String) (filters : JobFilters) (l : CrawlLink)
    (hurl : is_job_url l.href = true) (ht : l.title ≠ "")
    (hq : matches_query l.title (queryTerms filters.query) = true) :
    extract_jobs company base filters [l] =
      (if filterRejects filters l.location then []
       else [mkCrawlJob company (urljoinM base l.href) l]) := by
  have ht' : (l.title == "") = false := by simpa using ht
  unfold extract_jobs
  unfold extractGo
  simp only [hurl, ht', hq, Bool.not_true, Bool.false_eq_true, if_false,
    List.contains, List.elem, List.nil_append, List.length_cons, List.length_nil]
  split
  · rfl
  · simp only [extractGo]
    rw [ite_self]

/-- C2 counterexample: with remote_only set and a non-empty location filter,
a link whose extracted location is empty (so neither remote nor matching the
filter) is still accepted and yields its JobRecord, refuting the claim that
it is rejected unless the filter matches the location. -/
theorem c2_counterexample :
    extract_jobs "Acme" "https://example.com/careers"
      ⟨"engineer", some "Austin", true, none, 30, 10⟩
      [⟨"https://example.com/jobs/1", "Senior Software Engineer", ""⟩] =
    [⟨"Senior Software Engineer", "Acme", "", "", "https://example.com/jobs/1",
      none, "crawler", false, "senior"⟩] := by
  rfl

/-- C2 amended: with remote_only set, a non-empty location filter configured
and a collected link passing the URL, deduplication, title and query checks
whose extracted location does not contain "remote", the link is rejected
exactly when its extracted location is non-empty and the lower-cased filter
is not a substring of it - an empty extracted location is accepted even
though the filter does not match it. -/
theorem c2_location_filter_override (company base : String) (filters : JobFilters)
    (l : CrawlLink) (hro : filters.remote_only = true)
    (hloc : locSet filters.location = true) (hurl : is_job_url l.href = true)
    (ht : l.title ≠ "") (hq : matches_query l.title (queryTerms filters.query) = true)
    (hnr : linkRemote l.location = false) :
    extract_jobs company base filters [l] = [] ↔
      (l.location ≠ "" ∧
        isSub (lowCodes (filters.location.getD "")) (lowCodes l.location) = false) := by
  rw [extract_single company base filters l hurl ht hq]
  have hfr : filterRejects filters l.location =
      ((l.location != "") &&
        !(isSub (lowCodes (filters.location.getD "")) (lowCodes l.location))) := by
    unfold filterRejects
    rw [hro, hnr, hloc]
    rfl
  rw [hfr]
  constructor
  · intro he
    by_cases hxy : ((l.location != "") &&
        !(isSub (lowCodes (filters.location.getD "")) (lowCodes l.location))) = true
    · have hxy' : (l.location != "") = true ∧
          (!(isSub (lowCodes (filters.location.getD "")) (lowCodes l.location))) = true := by
        simpa using hxy
      refine ⟨by simpa using hxy'.1, ?_⟩
      have h2 := hxy'.2
      cases hs : isSub (lowCodes (filters.location.getD "")) (lowCodes l.location) with
      | false => rfl
      | true => rw [hs] at h2; simp at h2
    · rw [if_neg hxy] at he
      exact absurd he (by simp)
  · intro hrhs
    obtain ⟨h1, h2⟩ := hrhs
    have hxy : ((l.location != "") &&
        !(isSub (lowCodes (filters.location.getD "")) (lowCodes l.location))) = true := by
      simp [h1, h2]
    rw [if_pos hxy]

/-- Witness for the amended C2: filter Austin, extracted location Berlin, DE:
the link is rejected and the crawl yields nothing. -/
theorem c2_location_filter_override_witness :
    extract_jobs "Acme" "https://example.com/careers"
      ⟨"engineer", some "Austin", true, none, 30, 10⟩
      [⟨"https://example.com/jobs/1", "Senior Software Engineer", "Berlin, DE"⟩] = [] :=
  (c2_location_filter_override "Acme" "https://example.com/careers"
      ⟨"engineer", some "Austin", true, none, 30, 10⟩
      ⟨"https://example.com/jobs/1", "Senior Software Engineer", "Berlin, DE"⟩
      rfl rfl (by decide) (by decide) (by decide) (by decide)).mpr
    ⟨by decide, by decide⟩

/-- Invariant of the extraction loop: every produced JobRecord's key was
claimed in the seen set, and produced keys are pairwise distinct. -/
theorem extractGo_pairwise (company base : String) (filters : JobFilters)
    (qt : List (List Nat)) :
    ∀ (links : List CrawlLink) (seen : List String) (jobs : List Job),
      (∀ j ∈ jobs, seen.contains (jobKey j) = true) →
      jobs.Pairwise (fun a b => jobKey a ≠ jobKey b) →
      (extractGo company base filters qt links seen jobs).Pairwise
        (fun a b => jobKey a ≠ jobKey b) := by
  intro links
  induction links with
  | nil => intro seen jobs _ h2; exact h2
  | cons l rest ih =>
    intro seen jobs h1 h2
    unfold extractGo
    split
    · exact ih seen jobs h1 h2
    · split
      · exact ih seen jobs h1 h2
      · rename_i hcont
        have h1' : ∀ j ∈ jobs,
            ((normalize_url (urljoinM base l.href) :: seen).contains (jobKey j)) = true := by
          intro j hj
          have := h1 j hj
          simp_all
        have hnew : ∀ j ∈ jobs, jobKey j ≠ normalize_url (urljoinM base l.href) := by
          intro j hj heq
          exact hcont (heq ▸ h1 j hj)
        have hkey : jobKey (mkCrawlJob company (urljoinM base l.href) l)
            = normalize_url (urljoinM base l.href) := rfl
        have hpw : (jobs ++ [mkCrawlJob company (urljoinM base l.href) l]).Pairwise
            (fun a b => jobKey a ≠ jobKey b) := by
          rw [List.pairwise_append]
          refine ⟨h2, by simp, fun a ha b hb => ?_⟩
          simp only [List.mem_singleton] at hb
          subst hb
          rw [hkey]
          exact hnew a ha
        have h1'' : ∀ j ∈ jobs ++ [mkCrawlJob company (urljoinM base l.href) l],
            ((normalize_url (urljoinM base l.href) :: seen).contains (jobKey j)) = true := by
          intro j hj
          rcases List.mem_append.mp hj with hj1 | hj2
          · exact h1' j hj1
          · simp only [List.mem_singleton] at hj2
            subst hj2
            rw [hkey]
            simp
        split
        · exact ih _ jobs h1' h2
        · split
          · exact ih _ jobs h1' h2
          · split
            · exact ih _ jobs h1' h2
            · split
              · exact hpw
              · exact ih _ _ h1'' hpw

/-- A two-link crawl where the links share a normalized URL and the first is
fully admissible yields exactly the first link's JobRecord: the second is
skipped as a duplicate whatever its own content. -/
theorem extract_two_dedup (company base : String) (filters : JobFilters) (l1 l2 : CrawlLink)
    (hurl : is_job_url l1.href = true) (ht : l1.title ≠ "")
    (hq : matches_query l1.title (queryTerms filters.query) = true)
    (hfl : filterRejects filters l1.location = false)
    (hkey : normalize_url (urljoinM base l2.href) = normalize_url (urljoinM base l1.href)) :
    extract_jobs company base filters [l1, l2] =
      [mkCrawlJob company (urljoinM base l1.href) l1] := by
  have ht' : (l1.title == "") = false := by simpa using ht
  unfold extract_jobs
  unfold extractGo
  simp only [hurl, ht', hq, hfl, Bool.not_true, Bool.false_eq_true, if_false,
    List.contains, List.elem, List.nil_append, List.length_cons, List.length_nil]
  split
  · rfl
  · unfold extractGo
    split
    · rfl
    · split
      · rfl
      · rename_i hcont
        exact absurd (by simp [hkey]) hcont

/-- C7 amended: produced JobRecords have pairwise distinct normalized URLs
(at most one record per normalized form; a later link with an already
claimed normalized URL is always skipped), and when the first link carrying
a normalized URL is fully admissible it produces the one record for that
URL.  The claim's "exactly one" fails when the first URL-admissible link
dies at the title or query check: it claims the normalized URL while
producing nothing. -/
theorem c7_dedup :
    (∀ (company base : String) (filters : JobFilters) (links : List CrawlLink),
      (extract_jobs company base filters links).Pairwise
        (fun a b => jobKey a ≠ jobKey b)) ∧
    (∀ (company base : String) (filters : JobFilters) (l1 l2 : CrawlLink),
      is_job_url l1.href = true → l1.title ≠ "" →
      matches_query l1.title (queryTerms filters.query) = true →
      filterRejects filters l1.location = false →
      normalize_url (urljoinM base l2.href) = normalize_url (urljoinM base l1.href) →
      extract_jobs company base filters [l1, l2] =
        [mkCrawlJob company (urljoinM base l1.href) l1]) := by
  constructor
  · intro company base filters links
    exact extractGo_pairwise company base filters (queryTerms filters.query) links [] []
      (by simp) (by simp)
  · intro company base filters l1 l2 hurl ht hq hfl hkey
    exact extract_two_dedup company base filters l1 l2 hurl ht hq hfl hkey

/-- C7 counterexample: two links normalizing to the same host and path - the
first passing the URL check but failing title extraction, the second fully
admissible - yield zero JobRecords, not exactly one: the first link claims
the normalized URL without producing a record. -/
theorem c7_counterexample :
    normalize_url (urljoinM "https://x.co/careers" "https://x.co/jobs/1?utm_source=a") =
      normalize_url (urljoinM "https://x.co/careers" "https://x.co/jobs/1") ∧
    extract_jobs "Acme" "https://x.co/careers" ⟨"engineer", none, false, none, 30, 10⟩
      [⟨"https://x.co/jobs/1?utm_source=a", "", "Remote"⟩,
       ⟨"https://x.co/jobs/1", "Senior Software Engineer", "Remote"⟩] = [] :=
  ⟨rfl, rfl⟩

/-- Witness for the amended C7 on spec scenario D: two links to the same job,
one with a tracking query string, yield exactly one JobRecord, produced by
the first. -/
theorem c7_dedup_witness :
    extract_jobs "Acme" "https://x.co/careers" ⟨"engineer", none, false, none, 30, 10⟩
      [⟨"https://x.co/jobs/1?utm_source=a", "Senior Software Engineer", "Remote"⟩,
       ⟨"https://x.co/jobs/1", "Staff Engineer II", "Remote"⟩] =
      [mkCrawlJob "Acme" (urljoinM "https://x.co/careers" "https://x.co/jobs/1?utm_source=a")
        ⟨"https://x.co/jobs/1?utm_source=a", "Senior Software Engineer", "Remote"⟩] :=
  c7_dedup.2 "Acme" "https://x.co/careers" ⟨"engineer", none, false, none, 30, 10⟩
    ⟨"https://x.co/jobs/1?utm_source=a", "Senior Software Engineer", "Remote"⟩
    ⟨"https://x.co/jobs/1", "Staff Engineer II", "Remote"⟩
    (by decide) (by decide) (by decide) (by decide) (by decide)
